import Mathlib

/-!
# Verification of the go-dbus wire-format codec against its specification

This file is a shallow embedding, in Lean 4, of the parts of the
remyoudompheng/go-dbus repository that the specification claims talk about:
the D-Bus type-signature parser and renderer, the marshalling and
unmarshalling code built on the `msgData` cursor (marshall.go), the two
`Message._Marshal` variants (message.go and the bytes.Buffer based variant),
the inbound framing logic (`popMessage` in dbus.go, `headerSigMsgSize` in
rawmessage.go) and the serial-number counter (message.go).

Modelling conventions:
* Go byte slices are `List Nat` whose elements are byte values; Go strings
  are their byte lists (`strBytes`), all literals in play are ASCII.
* Machine integers are `Nat`/`Int` with explicit `% 2^w` where Go converts.
* A Go panic carrying a value that implements `error` (these are the
  recoverable ones for `catchPanicErr`) is `goPanic.err`; a panic carrying a
  plain string (which `catchPanicErr` re-panics) is `goPanic.str`.
  `goPanic.diverge` marks a Go loop that would not terminate; recursive
  functions take an explicit fuel argument (structural, so that the kernel
  can evaluate them) and the wrappers pass fuel that is ample for every
  execution considered in the theorems (each theorem about a wrapper either
  evaluates it on concrete data or conditions on its result).
* Go functions returning `(value, err)` where the error is produced by a
  normal `return` are modelled with an `Option goError` component; an
  escaping panic is the `Except.error` of the surrounding `Except goPanic`.
-/

set_option autoImplicit false

namespace GoDbus

/-! ## Bytes, integers, alignment -/

/-- Little-endian bytes of `n` as a 32-bit word (Go `binary.LittleEndian.PutUint32`,
including the implicit `% 2^32` of a Go `uint32` conversion). -/
def le32 (n : Nat) : List Nat :=
  [n % 256, n / 256 % 256, n / 65536 % 256, n / 16777216 % 256]

/-- Big-endian bytes of `n` as a 32-bit word. -/
def be32 (n : Nat) : List Nat :=
  [n / 16777216 % 256, n / 65536 % 256, n / 256 % 256, n % 256]

/-- Little-endian bytes of `n` as a 16-bit word. -/
def le16 (n : Nat) : List Nat := [n % 256, n / 256 % 256]

/-- Little-endian bytes of `n` as a 64-bit word. -/
def le64 (n : Nat) : List Nat :=
  [n % 256, n / 256 % 256, n / 65536 % 256, n / 16777216 % 256,
   n / 4294967296 % 256, n / 1099511627776 % 256,
   n / 281474976710656 % 256, n / 72057594037927936 % 256]

/-- The two byte orders of `encoding/binary` used by the codec. -/
inductive ByteOrder where
  | le
  | be
deriving DecidableEq, Repr

/-- Go `order.Uint32(b)` on (at least) four bytes. -/
def ByteOrder.uint32 (o : ByteOrder) (b : List Nat) : Nat :=
  match o with
  | .le => b.getD 0 0 + 256 * b.getD 1 0 + 65536 * b.getD 2 0 + 16777216 * b.getD 3 0
  | .be => b.getD 3 0 + 256 * b.getD 2 0 + 65536 * b.getD 1 0 + 16777216 * b.getD 0 0

/-- Go `order.Uint16(b)` on (at least) two bytes. -/
def ByteOrder.uint16 (o : ByteOrder) (b : List Nat) : Nat :=
  match o with
  | .le => b.getD 0 0 + 256 * b.getD 1 0
  | .be => b.getD 1 0 + 256 * b.getD 0 0

/-- Go `order.Uint64(b)` on (at least) eight bytes (little-endian case only is
exercised; both orders are given). -/
def ByteOrder.uint64 (o : ByteOrder) (b : List Nat) : Nat :=
  match o with
  | .le => b.getD 0 0 + 256 * b.getD 1 0 + 65536 * b.getD 2 0 + 16777216 * b.getD 3 0
      + 4294967296 * b.getD 4 0 + 1099511627776 * b.getD 5 0
      + 281474976710656 * b.getD 6 0 + 72057594037927936 * b.getD 7 0
  | .be => b.getD 7 0 + 256 * b.getD 6 0 + 65536 * b.getD 5 0 + 16777216 * b.getD 4 0
      + 4294967296 * b.getD 3 0 + 1099511627776 * b.getD 2 0
      + 281474976710656 * b.getD 1 0 + 72057594037927936 * b.getD 0 0

/-- Go `order.PutUint32` as a byte list. -/
def ByteOrder.putUint32 (o : ByteOrder) (n : Nat) : List Nat :=
  match o with
  | .le => le32 n
  | .be => be32 n

/-- Rounding an offset up to an alignment of 1, 2, 4 or 8
(`msgData.Round` in marshall.go computes `^bit & (idx + bit)` with
`bit = rnd - 1`, which for these powers of two equals
`(idx + rnd - 1) / rnd * rnd`; every call site passes 1, 2, 4 or 8). -/
def goAlign (rnd idx : Nat) : Nat :=
  if rnd ≤ 1 then idx else (idx + rnd - 1) / rnd * rnd

/-- Byte values of an (ASCII) Go string. -/
def strBytes (s : String) : List Nat := s.data.map Char.toNat

/-! ## Errors and panics -/

/-- The error values produced by the modelled code.  Each constructor
corresponds to one `errors.New` / `fmt.Errorf` / error type of the source
(or to a Go runtime/reflect error, which also implements `error`). -/
inductive goError where
  /-- marshall.go: `fmt.Errorf("missing type")` in `parseOneSignature`. -/
  | missingType
  /-- marshall.go: `errMissingCloseParen`. -/
  | errMissingCloseParen
  /-- marshall.go: `fmt.Errorf("invalid signature %q", s)`. -/
  | invalidSignature (s : String)
  /-- marshall.go: `fmt.Errorf("trailing signature %q", rest)` in `scan`/`put`. -/
  | trailingSignature (s : String)
  /-- marshall.go: `errOutOfRange{Offset, Length}` thrown by `msgData.Next`. -/
  | errOutOfRange (Offset Length : Nat)
  /-- marshall.go: `fmt.Errorf("invalid header field ID: %d", b)` in `scanHeader`. -/
  | invalidHeaderFieldId (b : Nat)
  /-- marshall.go: `fmt.Errorf("unsupported type %q", byte(sig))` in `appendValue`. -/
  | unsupportedType (c : Nat)
  /-- marshall.go: `errors.New("unknown type")` in `parseVariants`. -/
  | unknownType
  /-- Go runtime `*TypeAssertionError` from a failed interface type assertion
  (e.g. `sig.(basicSig)` on a container signature, `val.([]interface{})`). -/
  | interfaceConversion
  /-- Go `*reflect.ValueError` from calling a kind-specific method
  (`Uint`, `SetUint`, `Field`, ...) on a `reflect.Value` of the wrong kind. -/
  | valueError
  /-- Go runtime index/slice-bounds error on direct indexing. -/
  | errIndexOutOfRange (i len : Nat)
  /-- dbus.go: `errMalformedEndianness`. -/
  | errMalformedEndianness (b : Nat)
  /-- dbus.go: `errIncompleteMessage` (short `io.ReadFull`). -/
  | errIncompleteMessage
  /-- dbus.go: an I/O error from `bufio.Reader.Peek` with fewer than 16 bytes. -/
  | errPeekShort
  /-- rawmessage.go: `errors.New("index error")` from `_GetInt32`/`_GetByte`
  (also `_GetStructSig`/`_GetDictSig`). -/
  | indexError
  /-- `errors.New("parse error")` from `_GetStructSig`/`_GetDictSig`. -/
  | parseError
  /-- `errors.New("Invalid Signature")` from `_AppendValue` on an empty
  signature. -/
  | errInvalidSig
deriving DecidableEq, Repr

/-- A Go panic: either a value implementing `error` (recoverable by
`catchPanicErr`), a plain string (re-panicked by `catchPanicErr`), or the
marker for a non-terminating Go loop (fuel exhaustion in this model). -/
inductive goPanic where
  | err (e : goError)
  | str (s : String)
  | diverge
deriving DecidableEq, Repr

/-! ## Signature trees (marshall.go) -/

/-- The `signature` interface of marshall.go with its four implementations
`basicSig`, `structSig`, `arraySig` and `dictSig`. -/
inductive signature where
  | basicSig (c : Char)
  | structSig (sigs : List signature)
  | arraySig (Elem : signature)
  | dictSig (Key : Char) (Value : signature)
deriving Repr

open signature

mutual

/-- The `String()` methods of `basicSig`, `structSig`, `arraySig`, `dictSig`. -/
def signature.String : signature → String
  | basicSig c => String.singleton c
  | structSig sigs => "(" ++ signature.StringList sigs ++ ")"
  | arraySig e => "a" ++ e.String
  | dictSig k v => "a\x7b" ++ String.singleton k ++ v.String ++ "\x7d"

/-- Concatenated rendering of the fields of a `structSig`
(the loop body of `structSig.String`). -/
def signature.StringList : List signature → String
  | [] => ""
  | s :: rest => s.String ++ signature.StringList rest

end

/-- The basic type codes accepted by the first `switch` of
`parseOneSignature` (marshall.go lines 70–77). -/
def isBasicCode (c : Char) : Bool :=
  c = 'b' || c = 'y' || c = 'n' || c = 'q' || c = 'i' || c = 'u' ||
  c = 'x' || c = 't' || c = 'd' || c = 's' || c = 'o' || c = 'g' || c = 'v'

mutual

/-- `parseOneSignature` (marshall.go lines 65–105) on a character list, with
fuel.  An error carries the `rest` string that the Go function returns next
to it (`""` everywhere except when a struct member fails, where the current
position is returned).  Note the translation of the `case 'a'` branch: when
the next character is `'{'` the Go code has an **empty** branch (just a
comment `// Dictionary.`), so control falls through to the final
`return nil, "", fmt.Errorf("invalid signature %q", s)`. -/
def parseOneSigF : Nat → List Char → Except (goError × List Char) (signature × List Char)
  | 0, _ => .error (.missingType, [])
  | _ + 1, [] => .error (.missingType, [])
  | fuel + 1, c :: rest =>
    if isBasicCode c then .ok (basicSig c, rest)
    else if c = '(' then parseStructF fuel rest
    else if c = 'a' then
      if rest ≠ [] ∧ rest.headD ' ' = '{' then
        -- Dictionary: the branch body is empty in the source, control
        -- reaches the trailing `invalid signature` return.
        .error (.invalidSignature (String.mk (c :: rest)), [])
      else
        match parseOneSigF fuel rest with
        | .error (e, _) => .error (e, [])
        | .ok (elem, rest') => .ok (arraySig elem, rest')
    else .error (.invalidSignature (String.mk (c :: rest)), [])

/-- The struct-parsing loop of `parseOneSignature` (`case '('`): parse
members until `')'`; a missing `')'` is `errMissingCloseParen` (with rest
`""`), and a failing member returns the current position as rest. -/
def parseStructF : Nat → List Char → Except (goError × List Char) (signature × List Char)
  | 0, _ => .error (.errMissingCloseParen, [])
  | _ + 1, [] => .error (.errMissingCloseParen, [])
  | fuel + 1, s =>
    if s.headD ' ' = ')' then .ok (structSig [], s.tail)
    else
      match parseOneSigF fuel s with
      | .error (e, _) => .error (e, s)
      | .ok (sig, rest) =>
        match parseStructF fuel rest with
        | .error e => .error e
        | .ok (structSig sigs, rest') => .ok (structSig (sig :: sigs), rest')
        | .ok (other, rest') => .ok (other, rest')

end

/-- `parseOneSignature` on a string; the fuel `2 * length + 2` exceeds the
depth of any chain of recursive calls (each call either consumes a character
or is a struct-loop step following one). -/
def parseOneSignature (s : String) : Except (goError × String) (signature × String) :=
  match parseOneSigF (2 * s.length + 2) s.data with
  | .error (e, rest) => .error (e, String.mk rest)
  | .ok (sig, rest) => .ok (sig, String.mk rest)

/-- The loop of `parseSignature` (marshall.go lines 49–59): parse
`parseOneSignature` repeatedly until the string is exhausted (the rest
component of a failing parse is dropped, as in the source). -/
def parseSignatureF : Nat → List Char → Except goError (List signature)
  | 0, _ => .error .missingType
  | _ + 1, [] => .ok []
  | fuel + 1, s =>
    match parseOneSigF (2 * s.length + 2) s with
    | .error (e, _) => .error e
    | .ok (sig, rest) =>
      match parseSignatureF fuel rest with
      | .error e => .error e
      | .ok sigs => .ok (sig :: sigs)

/-- `parseSignature` (marshall.go lines 49–59): an empty string yields the
empty sequence with no error. -/
def parseSignature (s : String) : Except goError (List signature) :=
  parseSignatureF (s.length + 1) s.data


/-! ## Dynamic values

Go carries parameters as `interface{}` / `reflect.Value`; `goVal` is the
closed union of the dynamic types the codec produces and consumes.  A Go
`[]interface{}` (used both for arrays and for struct/dict-entry contents)
is `sliceV`. -/

inductive goVal where
  | byteV (b : Nat)
  | boolV (b : Bool)
  | i16V (n : Int)
  | u16V (n : Nat)
  | i32V (n : Int)
  | u32V (n : Nat)
  | i64V (n : Int)
  | u64V (n : Nat)
  /-- a Go `float64`, carried by its IEEE-754 bit pattern -/
  | f64V (bits : Nat)
  /-- a Go `string` (also `ObjectPath`), as its bytes -/
  | strV (s : List Nat)
  | sliceV (vs : List goVal)
deriving Repr

open goVal

/-! ## The `msgData` cursor (marshall.go lines 375–423) -/

/-- `msgData`: byte order, data buffer, current offset. -/
structure msgData where
  Endianness : ByteOrder := .le
  Data : List Nat := []
  Idx : Nat := 0
deriving Repr

/-- `msgData.Round` (marshall.go lines 382–392): advance `Idx` to the next
multiple of `rnd` (all call sites pass 1, 2, 4 or 8). -/
def msgData.Round (m : msgData) (rnd : Nat) : msgData :=
  { m with Idx := goAlign rnd m.Idx }

/-- `msgData.Next` (marshall.go lines 394–403): take `n` bytes at `Idx`; when
that reads past the end it panics with `errOutOfRange{end, len(Data)}`. -/
def msgData.Next (m : msgData) (n : Nat) : Except goPanic (List Nat × msgData) :=
  if m.Data.length < m.Idx + n then
    .error (.err (.errOutOfRange (m.Idx + n) m.Data.length))
  else
    .ok ((m.Data.drop m.Idx).take n, { m with Idx := m.Idx + n })

/-- `msgData.Put` (marshall.go lines 405–413): `append(msg.Data[:msg.Idx], s...)`.
When `Idx > len(Data)` the extension bytes are zero (Go heap memory is
zeroed, and on the marshalling paths `Idx` never moves backwards, so no stale
bytes can be exposed); when `Idx ≤ len(Data)` the tail beyond `Idx` is
dropped. -/
def msgData.Put (m : msgData) (s : List Nat) : msgData :=
  { m with
    Data := m.Data.take m.Idx ++ List.replicate (m.Idx - m.Data.length) 0 ++ s,
    Idx := m.Idx + s.length }

/-- `msgData.PutString` (marshall.go lines 415–423); operationally identical
to `Put` on the string's bytes. -/
def msgData.PutString (m : msgData) (s : List Nat) : msgData := m.Put s

/-- In-place `order.PutUint32(data[pos:pos+4], v)` used to patch a length
word (all call sites have `pos + 4 ≤ length`). -/
def putU32At (data : List Nat) (pos : Nat) (o : ByteOrder) (v : Nat) : List Nat :=
  data.take pos ++ o.putUint32 v ++ data.drop (pos + 4)

/-- `appendArray` (marshall.go lines 136–145): 4-align, align to `align`,
write a 4-byte length placeholder, run `proc`, then patch the placeholder
with the number of bytes `proc` wrote (measured from right after the
placeholder — so any alignment padding `proc` emits before its first
element is included in the count). -/
def appendArray (m : msgData) (align : Nat) (proc : msgData → Except goPanic msgData) :
    Except goPanic msgData := do
  let m := (m.Round 4).Round align
  let m := m.Put [0, 0, 0, 0]
  let start := m.Idx
  let m' ← proc m
  let length := m'.Idx - start
  .ok { m' with Data := putU32At m'.Data (start - 4) m'.Endianness length }

/-! ## `appendValue` (marshall.go lines 147–211)

The recursion (value / array-element loop / dict-entry loop / struct-field
loop) is a single fuel-indexed function over a call descriptor so that the
kernel can evaluate it; `appendCall` names the four mutually recursive
entry points. -/

inductive appendCall where
  /-- `appendValue(msg, sig, val)` -/
  | value (m : msgData) (sig : signature) (v : goVal)
  /-- the `for _, v := range vals` loop of the `arraySig` case -/
  | elems (elemSig : signature) (vs : List goVal) (m : msgData)
  /-- the `for _, v := range vals` loop of the `dictSig` case -/
  | dictElems (k : Char) (valSig : signature) (vs : List goVal) (m : msgData)
  /-- the `for i, fldsig := range sig` loop of the `structSig` case
  (`vals` is the asserted `[]interface{}`, `i` the running index) -/
  | structFields (sigs : List signature) (vals : List goVal) (i : Nat) (m : msgData)

/-- The recursion of `appendValue`.  Error returns of nested `appendValue`
calls are discarded exactly where the source discards them (the element,
dict and struct loops); failed type assertions (`val.([]interface{})`,
`val.(byte)`, ...) panic with a Go `*TypeAssertionError`, and out-of-range
`vals[i]` indexing panics with a runtime bounds error — both escape, since
`appendValue` has no `recover`. -/
def appendGoF : Nat → appendCall → Except goPanic (msgData × Option goError)
  | 0, _ => .error .diverge
  | fuel + 1, .value m sig v =>
    match sig with
    | arraySig elem =>
      -- vals := val.([]interface{}); appendArray(msg, 1, ...) with the body
      -- of appendArray inlined around the recursive element loop
      match v with
      | sliceV vals =>
        let m := (m.Round 4).Round 1
        let m := m.Put [0, 0, 0, 0]
        let start := m.Idx
        (match appendGoF fuel (.elems elem vals m) with
         | .error p => .error p
         | .ok (m', _) =>
           .ok ({ m' with
                  Data := putU32At m'.Data (start - 4) m'.Endianness (m'.Idx - start) },
                none))
      | _ => .error (.err .interfaceConversion)
    | dictSig k valSig =>
      match v with
      | sliceV vals =>
        let m := (m.Round 4).Round 1
        let m := m.Put [0, 0, 0, 0]
        let start := m.Idx
        (match appendGoF fuel (.dictElems k valSig vals m) with
         | .error p => .error p
         | .ok (m', _) =>
           .ok ({ m' with
                  Data := putU32At m'.Data (start - 4) m'.Endianness (m'.Idx - start) },
                none))
      | _ => .error (.err .interfaceConversion)
    | structSig sigs =>
      let m := m.Round 8
      (match v with
       | sliceV vals => appendGoF fuel (.structFields sigs vals 0 m)
       | _ => .error (.err .interfaceConversion))
    | basicSig c =>
      if c = 'y' then
        match v with
        | byteV b => .ok (m.Put [b % 256], none)
        | _ => .error (.err .interfaceConversion)
      else if c = 's' then
        match v with
        | strV s =>
          let m := m.Round 4
          let m := m.Put (le32 s.length)
          let m := m.PutString s
          .ok (m.Put [0], none)
        | _ => .error (.err .interfaceConversion)
      else if c = 'u' then
        match v with
        | u32V n => .ok ((m.Round 4).Put (le32 n), none)
        | _ => .error (.err .interfaceConversion)
      else if c = 'i' then
        match v with
        | i32V n => .ok ((m.Round 4).Put (le32 (n % 4294967296).toNat), none)
        | _ => .error (.err .interfaceConversion)
      else
        .ok (m, some (.unsupportedType c.toNat))
  | _ + 1, .elems _ [] m => .ok (m, none)
  | fuel + 1, .elems elemSig (v :: vs) m =>
    (match appendGoF fuel (.value m elemSig v) with
     | .error p => .error p
     | .ok (m', _) => appendGoF fuel (.elems elemSig vs m'))
  | _ + 1, .dictElems _ _ [] m => .ok (m, none)
  | fuel + 1, .dictElems k valSig (v :: vs) m =>
    (match v with
     | sliceV [] => .error (.err (.errIndexOutOfRange 0 0))
     | sliceV [_] => .error (.err (.errIndexOutOfRange 1 1))
     | sliceV (key :: value :: _) =>
       let m := m.Round 8
       (match appendGoF fuel (.value m (basicSig k) key) with
        | .error p => .error p
        | .ok (m', _) =>
          match appendGoF fuel (.value m' valSig value) with
          | .error p => .error p
          | .ok (m'', _) => appendGoF fuel (.dictElems k valSig vs m''))
     | _ => .error (.err .interfaceConversion))
  | _ + 1, .structFields [] _ _ m => .ok (m, none)
  | fuel + 1, .structFields (sig :: rest) vals i m =>
    if h : i < vals.length then
      match appendGoF fuel (.value m sig (vals.get ⟨i, h⟩)) with
      | .error p => .error p
      | .ok (m', _) => appendGoF fuel (.structFields rest vals (i + 1) m')
    else .error (.err (.errIndexOutOfRange i vals.length))

/-- Ample fuel for every execution evaluated in this file (the fuel only
bounds the recursion of loops that Go runs without bound; theorems that
quantify over inputs condition on the fueled function's result instead). -/
def marshalFuel : Nat := 1000000

/-- `appendValue` (marshall.go lines 147–211). -/
def appendValue (m : msgData) (sig : signature) (v : goVal) :
    Except goPanic (msgData × Option goError) :=
  appendGoF marshalFuel (.value m sig v)

/-- The `for i, sigelem := range sigs` loop of `appendParamsData`
(marshall.go lines 218–223): `params[i]` indexing can panic, and a non-nil
`appendValue` error is re-thrown with `panic(err)`. -/
def appendParamsLoop (m : msgData) (sigs : List signature) (params : List goVal) (i : Nat) :
    Except goPanic msgData :=
  match sigs with
  | [] => .ok m
  | sig :: rest =>
    if h : i < params.length then
      match appendValue m sig (params.get ⟨i, h⟩) with
      | .error p => .error p
      | .ok (_, some e) => .error (.err e)
      | .ok (m', none) => appendParamsLoop m' rest params (i + 1)
    else .error (.err (.errIndexOutOfRange i params.length))

/-- `appendParamsData` (marshall.go lines 213–224): parse the signature
string (a parse error is re-thrown with `panic(err)`), then append each
parameter. -/
def appendParamsData (m : msgData) (sig : String) (params : List goVal) :
    Except goPanic msgData :=
  match parseSignature sig with
  | .error e => .error (.err e)
  | .ok sigs => appendParamsLoop m sigs params 0

/-! ## `putValue` and `putHeader` (marshall.go lines 450–479, 607–707)

`putValue` differs from `appendValue` in two ways that matter here: it has a
`defer catchPanicErr(&err)`, so a panic carrying an error value (reflect
`*ValueError` from a kind mismatch, the `*TypeAssertionError` from the
`sig.(basicSig)` switch that control falls into after a container case) is
converted to a returned error at this call's boundary; and its container
cases do not `return`, so after writing a container it always reaches the
`sig.(basicSig)` type switch and returns the conversion error.  String
panics (the dict case's `panic("dictionaries are unsupported")`, the basic
default's `panic("unsupported")`, reflect's `Field index out of range`)
are re-panicked by `catchPanicErr` and escape. -/

/-- Go `reflect.Value.Uint` — defined on uint kinds, `*ValueError` panic
otherwise. -/
def goVal.uintOf : goVal → Option Nat
  | byteV b => some b
  | u16V n => some n
  | u32V n => some n
  | u64V n => some n
  | _ => none

/-- Go `reflect.Value.Int` — defined on int kinds. -/
def goVal.intOf : goVal → Option Int
  | i16V n => some n
  | i32V n => some n
  | i64V n => some n
  | _ => none

/-- Go `reflect.Value.String`: the string for string kinds, a
`"<kind Value>"` placeholder otherwise (reflect's `String` is the one kind
accessor that does not panic). -/
def goVal.goStringOf : goVal → List Nat
  | strV s => s
  | byteV _ => strBytes "<uint8 Value>"
  | boolV _ => strBytes "<bool Value>"
  | i16V _ => strBytes "<int16 Value>"
  | u16V _ => strBytes "<uint16 Value>"
  | i32V _ => strBytes "<int32 Value>"
  | u32V _ => strBytes "<uint32 Value>"
  | i64V _ => strBytes "<int64 Value>"
  | u64V _ => strBytes "<uint64 Value>"
  | f64V _ => strBytes "<float64 Value>"
  | sliceV _ => strBytes "<[]interface \x7b\x7d Value>"

/-- Go `order.PutUint16`. -/
def ByteOrder.putUint16 (o : ByteOrder) (n : Nat) : List Nat :=
  match o with
  | .le => le16 n
  | .be => [n / 256 % 256, n % 256]

/-- Go `order.PutUint64`. -/
def ByteOrder.putUint64 (o : ByteOrder) (n : Nat) : List Nat :=
  match o with
  | .le => le64 n
  | .be => (le64 n).reverse

/-- The call descriptors of the `putValue` recursion: the value case, the
array-element loop and the struct-field loop. -/
inductive putCall where
  | value (m : msgData) (sig : signature) (v : goVal)
  /-- `for i, imax := 0, val.Len(); i < imax; i++` of the `arraySig` case -/
  | elems (elemSig : signature) (vals : List goVal) (m : msgData)
  /-- `for i, fldsig := range sig` of the `structSig` case (`val.Field(i)`) -/
  | structFields (sigs : List signature) (vals : List goVal) (i : Nat) (m : msgData)

/-- The basic-type switch of `putValue` (marshall.go lines 638–705), after
the container switch has been passed with a `basicSig`. -/
def putBasic (m : msgData) (c : Char) (v : goVal) : Except goPanic (msgData × Option goError) :=
  if c = 'y' then
    match v.uintOf with
    | some n => .ok (m.Put [n % 256], none)
    | none => .ok (m, some .valueError)
  else if c = 'b' then
    match v with
    | boolV b => .ok ((m.Round 4).Put [if b then 1 else 0, 0, 0, 0], none)
    | _ => .ok (m, some .valueError)
  else if c = 'n' then
    let m := m.Round 2
    match v.intOf with
    | some n => .ok (m.Put (m.Endianness.putUint16 (n % 65536).toNat), none)
    | none => .ok (m, some .valueError)
  else if c = 'q' then
    let m := m.Round 2
    match v.uintOf with
    | some n => .ok (m.Put (m.Endianness.putUint16 (n % 65536)), none)
    | none => .ok (m, some .valueError)
  else if c = 'i' then
    let m := m.Round 4
    match v.intOf with
    | some n => .ok (m.Put (m.Endianness.putUint32 (n % 4294967296).toNat), none)
    | none => .ok (m, some .valueError)
  else if c = 'u' then
    let m := m.Round 4
    match v.uintOf with
    | some n => .ok (m.Put (m.Endianness.putUint32 n), none)
    | none => .ok (m, some .valueError)
  else if c = 'x' then
    let m := m.Round 8
    match v.intOf with
    | some n => .ok (m.Put (m.Endianness.putUint64 (n % 18446744073709551616).toNat), none)
    | none => .ok (m, some .valueError)
  else if c = 't' then
    let m := m.Round 8
    match v.uintOf with
    | some n => .ok (m.Put (m.Endianness.putUint64 n), none)
    | none => .ok (m, some .valueError)
  else if c = 'd' then
    let m := m.Round 8
    match v with
    | f64V bits => .ok (m.Put (m.Endianness.putUint64 bits), none)
    | _ => .ok (m, some .valueError)
  else if c = 's' ∨ c = 'o' then
    let s := v.goStringOf
    let m := m.Round 4
    let m := m.Put (m.Endianness.putUint32 s.length)
    let m := m.PutString s
    .ok (m.Put [0], none)
  else if c = 'g' then
    -- our dynamic values never carry a `signature`, so `val.Interface().(signature)`
    -- fails and the `val.String()` branch is taken
    let s := v.goStringOf
    let m := m.Put [s.length % 256]
    let m := m.PutString s
    .ok (m.Put [0], none)
  else
    .error (.str "unsupported")

/-- The recursion of `putValue`. -/
def putGoF : Nat → putCall → Except goPanic (msgData × Option goError)
  | 0, _ => .error .diverge
  | fuel + 1, .value m sig v =>
    match sig with
    | arraySig elem =>
      let m := m.Round 4
      let idx := m.Idx
      let m := m.Put [0, 0, 0, 0]
      let begin' := m.Idx
      (match v with
       | sliceV vals =>
         (match putGoF fuel (.elems elem vals m) with
          | .error p => .error p
          | .ok (m', _) =>
            let m' := { m' with
                        Data := putU32At m'.Data idx m'.Endianness (m'.Idx - begin') }
            -- control falls through to `switch sig.(basicSig)`, whose failed
            -- assertion is recovered by this call's catchPanicErr
            .ok (m', some .interfaceConversion))
       | _ => .ok (m, some .valueError))
    | structSig sigs =>
      let m := m.Round 8
      (match v with
       | sliceV vals =>
         (match putGoF fuel (.structFields sigs vals 0 m) with
          | .error p => .error p
          | .ok (m', _) => .ok (m', some .interfaceConversion))
       | _ => .ok (m, some .valueError))
    | dictSig _ _ => .error (.str "dictionaries are unsupported")
    | basicSig c => putBasic m c v
  | _ + 1, .elems _ [] m => .ok (m, none)
  | fuel + 1, .elems elemSig (v :: vs) m =>
    (match putGoF fuel (.value m elemSig v) with
     | .error p => .error p
     | .ok (m', _) => putGoF fuel (.elems elemSig vs m'))
  | _ + 1, .structFields [] _ _ m => .ok (m, none)
  | fuel + 1, .structFields (sig :: rest) vals i m =>
    if h : i < vals.length then
      match putGoF fuel (.value m sig (vals.get ⟨i, h⟩)) with
      | .error p => .error p
      | .ok (m', _) => putGoF fuel (.structFields rest vals (i + 1) m')
    else .error (.str "reflect: Field index out of range")

/-- `putValue` (marshall.go lines 607–707). -/
def msgData.putValue (m : msgData) (sig : signature) (v : goVal) :
    Except goPanic (msgData × Option goError) :=
  putGoF marshalFuel (.value m sig v)

/-- `msgData.put` (marshall.go lines 493–505): parse a one-type signature
string, reject trailing characters, then `putValue`.  (The source also
panics when handed a raw `reflect.Value`; `goVal` cannot express that.) -/
def msgData.put (m : msgData) (sigstr : String) (v : goVal) :
    Except goPanic (msgData × Option goError) :=
  match parseOneSignature sigstr with
  | .ok (sig, rest) =>
    if rest ≠ "" then .ok (m, some (.trailingSignature rest))
    else m.putValue sig v
  | .error (e, rest) =>
    if rest ≠ "" then .ok (m, some (.trailingSignature rest))
    else .ok (m, some e)

/-- The fixed D-Bus message header `msgHeader` (marshall.go lines 352–359).
The Go field `Type` is `Type'` here (`Type` is reserved in Lean). -/
structure msgHeader where
  Endianness : Nat := 0
  Type' : Nat := 0
  Flags : Nat := 0
  Protocol : Nat := 0
  BodyLength : Nat := 0
  Serial : Nat := 0
deriving DecidableEq, Repr

/-- `msgHeaderFields` (marshall.go lines 363–373): fields 1–9 of the
header-fields array.  Strings (and the `ObjectPath`) are byte lists. -/
structure msgHeaderFields where
  Path : List Nat := []
  Interface : List Nat := []
  Member : List Nat := []
  ErrorName : List Nat := []
  ReplySerial : Nat := 0
  Destination : List Nat := []
  Sender : List Nat := []
  Signature : List Nat := []
  NumFD : Nat := 0
deriving DecidableEq, Repr

/-- `hdrSigs = mustParseSig("(yyyyuu)")` (marshall.go line 451); the parse
succeeds, the default is dead. -/
def hdrSigs : signature :=
  match parseOneSignature "(yyyyuu)" with
  | .ok (sig, _) => sig
  | .error _ => structSig []

/-- `fldSigs = mustParseSigs("osssussgu")` (marshall.go line 452). -/
def fldSigs : List signature :=
  match parseSignature "osssussgu" with
  | .ok sigs => sigs
  | .error _ => []

/-- One iteration of the field loop of `putHeader` (marshall.go lines
462–475): skip the field when its value is the zero value of its type,
otherwise 8-align, write the field code byte, the field signature as a `g`
value, and the field value.  The `msg.put`/`msg.putValue` error returns are
discarded as in the source. -/
def putHeaderField (m : msgData) (code : Nat) (sig : signature) (v : goVal)
    (isZero : Bool) : Except goPanic msgData :=
  if isZero then .ok m
  else do
    let m := m.Round 8
    let m := m.Put [code % 256]
    let (m, _) ← m.put "g" (strV (strBytes sig.String))
    let (m, _) ← m.putValue sig v
    .ok m

/-- `putHeader` (marshall.go lines 454–479): fixed header via `putValue` on
`hdrSigs` (whose error return is discarded), a 4-byte placeholder, the nine
header fields (the reflection loop unrolled over `msgHeaderFields`), then
the fields-array byte length patched into the placeholder. -/
def msgData.putHeader (m : msgData) (hdr : msgHeader) (flds : msgHeaderFields) :
    Except goPanic msgData := do
  let (m, _) ← m.putValue hdrSigs
    (sliceV [byteV hdr.Endianness, byteV hdr.Type', byteV hdr.Flags,
             byteV hdr.Protocol, u32V hdr.BodyLength, u32V hdr.Serial])
  let m := m.Put [0, 0, 0, 0]
  let fldStart := m.Idx
  let m ← putHeaderField m 1 (fldSigs.getD 0 (basicSig ' ')) (strV flds.Path) flds.Path.isEmpty
  let m ← putHeaderField m 2 (fldSigs.getD 1 (basicSig ' ')) (strV flds.Interface) flds.Interface.isEmpty
  let m ← putHeaderField m 3 (fldSigs.getD 2 (basicSig ' ')) (strV flds.Member) flds.Member.isEmpty
  let m ← putHeaderField m 4 (fldSigs.getD 3 (basicSig ' ')) (strV flds.ErrorName) flds.ErrorName.isEmpty
  let m ← putHeaderField m 5 (fldSigs.getD 4 (basicSig ' ')) (u32V flds.ReplySerial) (flds.ReplySerial == 0)
  let m ← putHeaderField m 6 (fldSigs.getD 5 (basicSig ' ')) (strV flds.Destination) flds.Destination.isEmpty
  let m ← putHeaderField m 7 (fldSigs.getD 6 (basicSig ' ')) (strV flds.Sender) flds.Sender.isEmpty
  let m ← putHeaderField m 8 (fldSigs.getD 7 (basicSig ' ')) (strV flds.Signature) flds.Signature.isEmpty
  let m ← putHeaderField m 9 (fldSigs.getD 8 (basicSig ' ')) (u32V flds.NumFD) (flds.NumFD == 0)
  let length := m.Idx - fldStart
  .ok { m with Data := putU32At m.Data (fldStart - 4) m.Endianness length }

/-- The `Message` record shared by both marshaller variants (message.go
lines 37–55 and the bytes.Buffer variant).  The Go field `Type` is `Type'`
(`Type` is reserved in Lean); strings are byte lists, the body signature
stays a string because it is re-parsed. -/
structure Message where
  Type' : Nat := 0
  Flags : Nat := 0
  Protocol : Nat := 0
  Path : List Nat := []
  Dest : List Nat := []
  Iface : List Nat := []
  Member : List Nat := []
  Sig : String := ""
  serial : Nat := 0
  replySerial : Nat := 0
  ErrorName : List Nat := []
  Params : List goVal := []
deriving Repr

/-- `Message._Marshal` (message.go lines 130–167): the reflection-based
marshaller.  Builds the header via `putHeader` (the `flds` literal sets no
`Sender` and no `NumFD`), marshals the body into a fresh cursor with
`appendParamsData` (whose panics escape `_Marshal`), patches the body
length at offset 4, 8-aligns and appends the body. -/
def Message._Marshal (p : Message) : Except goPanic (List Nat) := do
  let hdr : msgHeader :=
    { Endianness := 108,  -- 'l'
      Type' := p.Type' % 256,
      Flags := p.Flags % 256,
      Protocol := p.Protocol % 256,
      Serial := p.serial }
  let flds : msgHeaderFields :=
    { Path := p.Path,
      Interface := p.Iface,
      Member := p.Member,
      ErrorName := p.ErrorName,
      ReplySerial := p.replySerial,
      Destination := p.Dest,
      Signature := strBytes p.Sig }
  let msg : msgData := { Endianness := .le }
  let msg ← msg.putHeader hdr flds
  let submsg : msgData := { Endianness := .le }
  let submsg ← appendParamsData submsg p.Sig p.Params
  let msg := { msg with Data := putU32At msg.Data 4 msg.Endianness submsg.Data.length }
  let msg := msg.Round 8
  let msg := msg.Put submsg.Data
  .ok msg.Data

/-! ## The bytes.Buffer based marshaller (the `_Append*` family and the
buffer variant of `Message._Marshal`) -/

/-- `_Align(length, index)` (part_003 lines 10–20): round the Go `int`
`index` up to a multiple of `length` for 1, 2, 4, 8 (the two's-complement
`^bit & (index + bit)` is floor division of `index + length - 1`, also for
negative `index`); `-1` for any other length. -/
def _Align (length : Nat) (index : Int) : Int :=
  if length = 1 then index
  else if length = 2 ∨ length = 4 ∨ length = 8 then
    ((index + length - 1).fdiv length) * length
  else -1

/-- `_AppendAlign`: write `_Align(length, len) - len` zero bytes (for a
negative `_Align` result the loop body never runs, hence `Int.toNat`). -/
def _AppendAlign (length : Nat) (buff : List Nat) : List Nat :=
  buff ++ List.replicate ((_Align length buff.length) - (buff.length : Int)).toNat 0

/-- `_AppendByte`. -/
def _AppendByte (buff : List Nat) (b : Nat) : List Nat := buff ++ [b % 256]

/-- `_AppendUInt32` (part_003; the `_AppendUint32` spelling called by the
buffer-variant `Message._Marshal` is not among the source files, but its
test `TestAppendUint32` pins the same behaviour: 4-align then the
little-endian word). -/
def _AppendUInt32 (buff : List Nat) (n : Nat) : List Nat :=
  _AppendAlign 4 buff ++ le32 n

/-- `_AppendInt32`. -/
def _AppendInt32 (buff : List Nat) (n : Int) : List Nat :=
  _AppendAlign 4 buff ++ le32 (n % 4294967296).toNat

/-- `_AppendInt64`. -/
def _AppendInt64 (buff : List Nat) (n : Int) : List Nat :=
  _AppendAlign 8 buff ++ le64 (n % 18446744073709551616).toNat

/-- `_AppendUInt64`. -/
def _AppendUInt64 (buff : List Nat) (n : Nat) : List Nat :=
  _AppendAlign 8 buff ++ le64 n

/-- `_AppendDouble` (on the IEEE-754 bit pattern). -/
def _AppendDouble (buff : List Nat) (bits : Nat) : List Nat :=
  _AppendAlign 8 buff ++ le64 bits

/-- `_AppendBoolean`. -/
def _AppendBoolean (buff : List Nat) (b : Bool) : List Nat :=
  _AppendUInt32 buff (if b then 1 else 0)

/-- `_AppendString`: 4-align, `int32` length, bytes, NUL. -/
def _AppendString (buff : List Nat) (s : List Nat) : List Nat :=
  _AppendAlign 4 buff ++ le32 s.length ++ s ++ [0]

/-- `_AppendSignature`: length byte, bytes, NUL. -/
def _AppendSignature (buff : List Nat) (sig : List Nat) : List Nat :=
  buff ++ [sig.length % 256] ++ sig ++ [0]

/-- `_AppendArray` (part_003 lines 77–87): 4-align, align, a 4-byte
placeholder (`"ABCD"`), the elements via `proc`, then the element byte
count (everything `proc` wrote, alignment padding included) where the
placeholder was. -/
def _AppendArray (buff : List Nat) (align : Nat)
    (proc : List Nat → Except goPanic (List Nat)) : Except goPanic (List Nat) := do
  let buff := _AppendAlign align (_AppendAlign 4 buff)
  let b := buff ++ strBytes "ABCD"
  let pos1 := b.length
  let b2 ← proc b
  .ok (buff ++ le32 (b2.length - pos1) ++ b2.drop pos1)

/-- The scan for the matching `)` in `_GetStructSig` (the indexed `for`
loop, carried over the remaining characters with the absolute index). -/
def structEndScan : List Char → Nat → Nat → Option Nat
  | [], _, _ => none
  | c :: rest, i, depth =>
    if c = ')' then (if depth = 0 then some i else structEndScan rest (i + 1) (depth - 1))
    else if c = '(' then structEndScan rest (i + 1) (depth + 1)
    else structEndScan rest (i + 1) depth

/-- The scan for the matching `}` in `_GetDictSig`. -/
def dictEndScan : List Char → Nat → Nat → Option Nat
  | [], _, _ => none
  | c :: rest, i, depth =>
    if c = '}' then (if depth = 0 then some i else dictEndScan rest (i + 1) (depth - 1))
    else if c = '{' then dictEndScan rest (i + 1) (depth + 1)
    else dictEndScan rest (i + 1) depth

/-- `_GetStructSig(sig, startIdx)`: the member characters of a struct
signature; on failure the Go function returns the string `"<nil>"` together
with the error, and some callers use that value. -/
def _GetStructSig (sig : List Char) (startIdx : Nat) : List Char × Option goError :=
  if sig.length ≤ startIdx ∨ sig.getD startIdx ' ' ≠ '(' then
    ("<nil>".data, some .indexError)
  else
    match structEndScan (sig.drop (startIdx + 1)) (startIdx + 1) 0 with
    | some i => ((sig.drop (startIdx + 1)).take (i - (startIdx + 1)), none)
    | none => ("<nil>".data, some .parseError)

/-- `_GetDictSig(sig, startIdx)`. -/
def _GetDictSig (sig : List Char) (startIdx : Nat) : List Char × Option goError :=
  if sig.length ≤ startIdx ∨ sig.getD startIdx ' ' ≠ '{' then
    ("<nil>".data, some .indexError)
  else
    match dictEndScan (sig.drop (startIdx + 1)) (startIdx + 1) 0 with
    | some i => ((sig.drop (startIdx + 1)).take (i - (startIdx + 1)), none)
    | none => ("<nil>".data, some .parseError)

/-- `_GetSigBlock(sig, index)`: one complete type of a signature string
starting at `index` (`sig[index]` itself can panic on an out-of-range
index, which the `Except` records). -/
def _GetSigBlock (sig : List Char) (index : Nat) :
    Except goPanic (List Char × Option goError) :=
  if h : index < sig.length then
    match sig.get ⟨index, h⟩ with
    | '(' =>
      (match _GetStructSig sig index with
       | (_, some e) => .ok ([], some e)
       | (str, none) => .ok ('(' :: str ++ [')'], none))
    | '{' =>
      (match _GetDictSig sig index with
       | (_, some e) => .ok ([], some e)
       | (str, none) => .ok ('{' :: str ++ ['}'], none))
    | c => .ok ([c], none)
  else .error (.err (.errIndexOutOfRange index sig.length))

/-- The call descriptors of the `_AppendValue` recursion: the value case,
the array-element loop, the per-character struct/dict member loop, and the
`_AppendParamsData` driver loop. -/
inductive bufCall where
  | value (buff : List Nat) (sig : List Char) (v : goVal)
  /-- `for _, v := range slice` of the Array case -/
  | arrElems (sigBlock : List Char) (vs : List goVal) (buff : List Nat)
  /-- `for i, s := range structSig` (also the DictBegin case): each member
  is encoded against the single character `string(s)`, and `val` is
  asserted to `[]interface{}` and indexed on every iteration -/
  | memberChars (chars : List Char) (v : goVal) (i : Nat) (buff : List Nat)
  /-- the loop of `_AppendParamsData`: remaining signature, parameter list
  and running parameter index -/
  | params (rem : List Char) (ps : List goVal) (i : Nat) (buff : List Nat)

/-- The recursion of `_AppendValue` (part_003 lines 89–158) and
`_AppendParamsData` (lines 160–168).  The result is
(buffer, sigOffset, error); the loops return offset 0.  Unhandled type
codes (`n`, `q`, `o`, `g`, `v`, ...) fall out of the switch with offset 0
and no error — `_AppendParamsData` then retries the same position with the
next parameter until the parameter indexing panics. -/
def bufGoF : Nat → bufCall → Except goPanic (List Nat × Nat × Option goError)
  | 0, _ => .error .diverge
  | _ + 1, .value buff [] _ => .ok (buff, 0, some .errInvalidSig)
  | fuel + 1, .value buff (c :: rest) v =>
    if c = 'y' then
      match v with
      | byteV b => .ok (_AppendByte buff b, 1, none)
      | _ => .error (.err .interfaceConversion)
    else if c = 's' then
      match v with
      | strV s => .ok (_AppendString buff s, 1, none)
      | _ => .error (.err .interfaceConversion)
    else if c = 'b' then
      match v with
      | boolV b => .ok (_AppendBoolean buff b, 1, none)
      | _ => .error (.err .interfaceConversion)
    else if c = 'u' then
      match v with
      | u32V n => .ok (_AppendUInt32 buff n, 1, none)
      | _ => .error (.err .interfaceConversion)
    else if c = 'i' then
      match v with
      | i32V n => .ok (_AppendInt32 buff n, 1, none)
      | _ => .error (.err .interfaceConversion)
    else if c = 'x' then
      match v with
      | i64V n => .ok (_AppendInt64 buff n, 1, none)
      | _ => .error (.err .interfaceConversion)
    else if c = 't' then
      match v with
      | u64V n => .ok (_AppendUInt64 buff n, 1, none)
      | _ => .error (.err .interfaceConversion)
    else if c = 'd' then
      match v with
      | f64V bits => .ok (_AppendDouble buff bits, 1, none)
      | _ => .error (.err .interfaceConversion)
    else if c = 'a' then
      match _GetSigBlock (c :: rest) 1 with
      | .error p => .error p
      | .ok (sigBlock, _) =>
        -- _AppendArray(buff, 1, ...) inlined around the element loop;
        -- a non-slice value writes no elements (the `ok && slice != nil`
        -- guard) rather than panicking
        let buff1 := _AppendAlign 1 (_AppendAlign 4 buff)
        let b := buff1 ++ strBytes "ABCD"
        let pos1 := b.length
        (match v with
         | sliceV vals =>
           (match bufGoF fuel (.arrElems sigBlock vals b) with
            | .error p => .error p
            | .ok (b2, _, _) =>
              .ok (buff1 ++ le32 (b2.length - pos1) ++ b2.drop pos1,
                   1 + sigBlock.length, none))
         | _ => .ok (buff1 ++ le32 0, 1 + sigBlock.length, none))
    else if c = '(' then
      let buff := _AppendAlign 8 buff
      let ss := (_GetStructSig (c :: rest) 0).1
      (match bufGoF fuel (.memberChars ss v 0 buff) with
       | .error p => .error p
       | .ok (b2, _, _) => .ok (b2, 2 + ss.length, none))
    else if c = '{' then
      let buff := _AppendAlign 8 buff
      let ss := (_GetDictSig (c :: rest) 0).1
      (match bufGoF fuel (.memberChars ss v 0 buff) with
       | .error p => .error p
       | .ok (b2, _, _) => .ok (b2, 2 + ss.length, none))
    else
      .ok (buff, 0, none)
  | _ + 1, .arrElems _ [] buff => .ok (buff, 0, none)
  | fuel + 1, .arrElems sigBlock (v :: vs) buff =>
    (match bufGoF fuel (.value buff sigBlock v) with
     | .error p => .error p
     | .ok (b', _, _) => bufGoF fuel (.arrElems sigBlock vs b'))
  | _ + 1, .memberChars [] _ _ buff => .ok (buff, 0, none)
  | fuel + 1, .memberChars (c :: cs) v i buff =>
    (match v with
     | sliceV vals =>
       if h : i < vals.length then
         match bufGoF fuel (.value buff [c] (vals.get ⟨i, h⟩)) with
         | .error p => .error p
         | .ok (b', _, _) => bufGoF fuel (.memberChars cs v (i + 1) b')
       else .error (.err (.errIndexOutOfRange i vals.length))
     | _ => .error (.err .interfaceConversion))
  | _ + 1, .params [] _ _ buff => .ok (buff, 0, none)
  | fuel + 1, .params rem ps i buff =>
    if h : i < ps.length then
      match bufGoF fuel (.value buff rem (ps.get ⟨i, h⟩)) with
      | .error p => .error p
      | .ok (b', off, _) => bufGoF fuel (.params (rem.drop off) ps (i + 1) b')
    else .error (.err (.errIndexOutOfRange i ps.length))

/-- `_AppendValue(buff, sig, val)` (part_003 lines 89–158). -/
def _AppendValue (buff : List Nat) (sig : String) (v : goVal) :
    Except goPanic (List Nat × Nat × Option goError) :=
  bufGoF marshalFuel (.value buff sig.data v)

/-- `_AppendParamsData(buff, sig, params)` (part_003 lines 160–168). -/
def _AppendParamsData (buff : List Nat) (sig : String) (params : List goVal) :
    Except goPanic (List Nat) :=
  match bufGoF marshalFuel (.params sig.data params 0 buff) with
  | .error p => .error p
  | .ok (b, _, _) => .ok b

/-- The header-fields closure passed to `_AppendArray` by the buffer-variant
`Message._Marshal` (part_002 lines 347–402): path, interface, member,
reply serial, destination and signature fields, each written only when
non-zero. -/
def marshalBFields (p : Message) (b : List Nat) : List Nat :=
  let b := if p.Path.isEmpty then b else
    _AppendString (_AppendAlign 8 b ++ [1, 1, 111, 0]) p.Path
  let b := if p.Iface.isEmpty then b else
    _AppendString (_AppendAlign 8 b ++ [2, 1, 115, 0]) p.Iface
  let b := if p.Member.isEmpty then b else
    _AppendString (_AppendAlign 8 b ++ [3, 1, 115, 0]) p.Member
  let b := if p.replySerial == 0 then b else
    _AppendUInt32 (_AppendAlign 8 b ++ [5, 1, 117, 0]) p.replySerial
  let b := if p.Dest.isEmpty then b else
    _AppendString (_AppendAlign 8 b ++ [6, 1, 115, 0]) p.Dest
  let b := if p.Sig = "" then b else
    _AppendSignature (_AppendAlign 8 b ++ [8, 1, 103, 0]) (strBytes p.Sig)
  b

/-- The buffer-based `Message._Marshal` (part_002 lines 334–408; named
`_MarshalB` here because the reflection-based variant of message.go keeps
the source name): endianness/type/flags/protocol bytes, the body length
(obtained by marshalling the body into a scratch buffer), the serial, the
header-fields array, 8-alignment, then the body marshalled again. -/
def Message._MarshalB (p : Message) : Except goPanic (List Nat) := do
  let buff : List Nat := [108, p.Type' % 256, p.Flags % 256, p.Protocol % 256]
  let tmpBuff ← _AppendParamsData [] p.Sig p.Params
  let buff := _AppendUInt32 buff tmpBuff.length
  let buff := _AppendUInt32 buff p.serial
  let buff ← _AppendArray buff 1 (fun b => .ok (marshalBFields p b))
  let buff := _AppendAlign 8 buff
  let buff ← _AppendParamsData buff p.Sig p.Params
  .ok buff

/-! ## The decoder: `parseVariants`, `_GetVariant`, `Parse`
(marshall.go lines 226–348)

`Parse` and `parseVariants` have **no** `recover`: an out-of-range read
(`msgData.Next`) or direct-index panic escapes to the caller of `Parse`
(modelled as the `Except.error`); only the errors produced with a normal
`return` appear in the `Option goError` component. -/

/-- Signed decode of a 16-bit word (`int16(x)`). -/
def toInt16 (x : Nat) : Int :=
  if x < 32768 then (x : Int) else (x : Int) - 65536

/-- The call descriptors of the `parseVariants` recursion. -/
inductive readCall where
  /-- `parseVariants(msg, sigs)`, with the accumulated `slice` -/
  | variants (acc : List goVal) (m : msgData) (sigs : List signature)
  /-- the `for msg.Idx < end` element loop of the `arraySig` case -/
  | arrLoop (acc : List goVal) (m : msgData) (elem : signature) (endIdx : Nat)
  /-- the `for msg.Idx < end` entry loop of the `dictSig` case -/
  | dictLoop (acc : List goVal) (m : msgData) (k : Char) (vsig : signature) (endIdx : Nat)
  /-- `_GetVariant(buff, index)` -/
  | getVariant (buff : List Nat) (index : Nat)
  /-- `Parse(buff, sig, index)` -/
  | parse (buff : List Nat) (sig : String) (index : Nat)

/-- The recursion of `parseVariants` (marshall.go lines 245–348),
`_GetVariant` (lines 226–233) and `Parse` (lines 235–243).  The result is
(values, cursor, returned error); for `_GetVariant`/`Parse` the cursor's
`Idx` is the returned index. -/
def readGoF : Nat → readCall → Except goPanic (List goVal × msgData × Option goError)
  | 0, _ => .error .diverge
  | _ + 1, .variants acc m [] => .ok (acc, m, none)
  | fuel + 1, .variants acc m (sig :: sigs) =>
    match sig with
    | arraySig elem =>
      let m := m.Round 4
      (match m.Next 4 with
       | .error p => .error p
       | .ok (bs, m) =>
         let l := m.Endianness.uint32 bs
         (match readGoF fuel (.arrLoop [] m elem (m.Idx + l)) with
          | .error p => .error p
          -- `if err != nil { return }` returns the named `slice`
          -- accumulated so far (without this array)
          | .ok (_, m', some e) => .ok (acc, m', some e)
          | .ok (tmp, m', none) => readGoF fuel (.variants (acc ++ [sliceV tmp]) m' sigs)))
    | structSig inner =>
      let m := m.Round 8
      (match readGoF fuel (.variants [] m inner) with
       | .error p => .error p
       | .ok (_, m', some e) => .ok (acc, m', some e)
       | .ok (vals, m', none) => readGoF fuel (.variants (acc ++ [sliceV vals]) m' sigs))
    | dictSig k vsig =>
      let m := m.Round 4
      (match m.Next 4 with
       | .error p => .error p
       | .ok (bs, m) =>
         let l := m.Endianness.uint32 bs
         (match readGoF fuel (.dictLoop [] m k vsig (m.Idx + l)) with
          | .error p => .error p
          -- `return nil, err` discards the accumulated slice
          | .ok (_, m', some e) => .ok ([], m', some e)
          | .ok (dictVals, m', none) =>
            readGoF fuel (.variants (acc ++ [sliceV dictVals]) m' sigs)))
    | basicSig c =>
      if c = 'b' then
        let m := m.Round 4
        (match m.Next 4 with
         | .error p => .error p
         | .ok (bs, m) =>
           readGoF fuel (.variants (acc ++ [boolV (m.Endianness.uint32 bs != 0)]) m sigs))
      else if c = 'y' then
        -- slice = append(slice, msg.Data[msg.Idx]); msg.Idx++
        (if m.Idx < m.Data.length then
          readGoF fuel
            (.variants (acc ++ [byteV (m.Data.getD m.Idx 0)]) { m with Idx := m.Idx + 1 } sigs)
         else .error (.err (.errIndexOutOfRange m.Idx m.Data.length)))
      else if c = 'n' then
        let m := m.Round 2
        (match m.Next 2 with
         | .error p => .error p
         | .ok (bs, m) =>
           readGoF fuel (.variants (acc ++ [i16V (toInt16 (m.Endianness.uint16 bs))]) m sigs))
      else if c = 'q' then
        let m := m.Round 2
        (match m.Next 2 with
         | .error p => .error p
         | .ok (bs, m) =>
           readGoF fuel (.variants (acc ++ [u16V (m.Endianness.uint16 bs)]) m sigs))
      else if c = 'u' then
        let m := m.Round 4
        (match m.Next 4 with
         | .error p => .error p
         | .ok (bs, m) =>
           readGoF fuel (.variants (acc ++ [u32V (m.Endianness.uint32 bs)]) m sigs))
      else if c = 's' ∨ c = 'o' then
        let m := m.Round 4
        (match m.Next 4 with
         | .error p => .error p
         | .ok (bs, m) =>
           let l := m.Endianness.uint32 bs
           match m.Next (l + 1) with
           | .error p => .error p
           | .ok (sb, m) => readGoF fuel (.variants (acc ++ [strV (sb.take l)]) m sigs))
      else if c = 'g' then
        (match m.Next 1 with
         | .error p => .error p
         | .ok (lb, m) =>
           let l := lb.headD 0
           match m.Next (l + 1) with
           | .error p => .error p
           | .ok (sb, m) => readGoF fuel (.variants (acc ++ [strV (sb.take l)]) m sigs))
      else if c = 'v' then
        (match readGoF fuel (.getVariant m.Data m.Idx) with
         | .error p => .error p
         | .ok (vals, m2, e) =>
           -- msg.Idx = idx happens before the error check
           let m := { m with Idx := m2.Idx }
           match e with
           | some e => .ok (acc, m, some e)
           | none => readGoF fuel (.variants (acc ++ vals) m sigs))
      else
        -- fmt.Println(sig); return nil, errors.New("unknown type")
        .ok ([], m, some .unknownType)
  | fuel + 1, .arrLoop acc m elem endIdx =>
    if m.Idx < endIdx then
      match readGoF fuel (.variants [] m [elem]) with
      | .error p => .error p
      | .ok (_, m', some e) => .ok (acc, m', some e)
      | .ok (arrValues, m', none) => readGoF fuel (.arrLoop (acc ++ arrValues) m' elem endIdx)
    else .ok (acc, m, none)
  | fuel + 1, .dictLoop acc m k vsig endIdx =>
    if m.Idx < endIdx then
      let m := m.Round 8
      match readGoF fuel (.variants [] m [basicSig k, vsig]) with
      | .error p => .error p
      | .ok (_, m', some e) => .ok (acc, m', some e)
      | .ok (kv, m', none) => readGoF fuel (.dictLoop (acc ++ [sliceV kv]) m' k vsig endIdx)
    else .ok (acc, m, none)
  | fuel + 1, .getVariant buff index =>
    if index < buff.length then
      let sigSize := buff.getD index 0
      let retidx := index + 1
      (if buff.length < retidx + sigSize then
        .error (.err (.errIndexOutOfRange (retidx + sigSize) buff.length))
       else
        let sigStr := String.mk (((buff.drop retidx).take sigSize).map Char.ofNat)
        readGoF fuel (.parse buff sigStr (retidx + sigSize + 1)))
    else .error (.err (.errIndexOutOfRange index buff.length))
  | fuel + 1, .parse buff sigStr index =>
    -- Parse hard-codes binary.LittleEndian
    let m : msgData := { Endianness := .le, Data := buff, Idx := index }
    match parseSignature sigStr with
    | .error e => .ok ([], { m with Idx := 0 }, some e)  -- named bufIdx is still 0
    | .ok sigs => readGoF fuel (.variants [] m sigs)

/-- Ample fuel for the decoding executions evaluated in this file. -/
def unmarshalFuel : Nat := 1000000

/-- `Parse(buff, sig, index)` (marshall.go lines 235–243); the result is
(values, final index, returned error), with escaping panics in the
`Except.error`. -/
def Parse (buff : List Nat) (sig : String) (index : Nat) :
    Except goPanic (List goVal × Nat × Option goError) :=
  match readGoF unmarshalFuel (.parse buff sig index) with
  | .error p => .error p
  | .ok (vals, m, e) => .ok (vals, m.Idx, e)

/-- `_GetVariant(buff, index)` (marshall.go lines 226–233). -/
def _GetVariant (buff : List Nat) (index : Nat) :
    Except goPanic (List goVal × Nat × Option goError) :=
  match readGoF unmarshalFuel (.getVariant buff index) with
  | .error p => .error p
  | .ok (vals, m, e) => .ok (vals, m.Idx, e)

/-! ## `scanValue`, `scan` and `scanHeader` (marshall.go lines 425–448,
481–491, 521–605)

`scanValue` carries its own `defer catchPanicErr(&err)`, so error-valued
panics (out-of-range reads, reflect `*ValueError` kind mismatches, the
`sig.(basicSig)` assertion after a container case) become its returned
error; string panics (`panic("unsupported")`, `panic("unsupported
dictionaries")`, reflect's `Elem of invalid type`) are re-panicked and
escape.  The reflection targets reachable from `scanHeader` are byte
fields, `uint32` fields and string fields; `slotKind` enumerates them. -/

inductive slotKind where
  | byteSlot
  | boolSlot
  | u32Slot
  | strSlot
deriving DecidableEq, Repr

/-- `reflect.Value.SetUint` on a slot: stores (with the target's width) on
uint-kind targets, `*ValueError` otherwise. -/
def slotSetUint (k : slotKind) (x : Nat) : Option goVal :=
  match k with
  | .byteSlot => some (byteV (x % 256))
  | .u32Slot => some (u32V (x % 4294967296))
  | _ => none

/-- `reflect.Value.SetBool` on a slot. -/
def slotSetBool (k : slotKind) (b : Bool) : Option goVal :=
  match k with
  | .boolSlot => some (boolV b)
  | _ => none

/-- `reflect.Value.SetString` on a slot. -/
def slotSetString (k : slotKind) (s : List Nat) : Option goVal :=
  match k with
  | .strSlot => some (strV s)
  | _ => none

/-- `scanValue` (marshall.go lines 521–605) reading into a slot of kind
`k`: (stored value if the reflect store succeeded, cursor, returned error).
Container signatures never recurse here because the slot is not a slice or
struct: an `arraySig` whose element loop would run panics in
`val.Type().Elem()`, a non-empty `structSig` panics in `val.Field(0)` (a
`*ValueError`, caught), a `dictSig` panics with a string. -/
def msgData.scanValue (m : msgData) (sig : signature) (k : slotKind) :
    Except goPanic (Option goVal × msgData × Option goError) :=
  match sig with
  | arraySig _ =>
    let m := m.Round 4
    (match m.Next 4 with
     | .error (.err e) => .ok (none, m, some e)
     | .error p => .error p
     | .ok (bs, m) =>
       let l := m.Endianness.uint32 bs
       if m.Idx < m.Idx + l then .error (.str "reflect: Elem of invalid type")
       else .ok (none, m, some .interfaceConversion))
  | structSig inner =>
    let m := m.Round 8
    (match inner with
     | [] => .ok (none, m, some .interfaceConversion)
     | _ :: _ => .ok (none, m, some .valueError))
  | dictSig _ _ => .error (.str "unsupported dictionaries")
  | basicSig c =>
    if c = 'y' then
      (if m.Idx < m.Data.length then
        match slotSetUint k (m.Data.getD m.Idx 0) with
        | some v => .ok (some v, { m with Idx := m.Idx + 1 }, none)
        | none => .ok (none, m, some .valueError)
       else .ok (none, m, some (.errIndexOutOfRange m.Idx m.Data.length)))
    else if c = 'b' then
      let m := m.Round 4
      (match m.Next 4 with
       | .error (.err e) => .ok (none, m, some e)
       | .error p => .error p
       | .ok (bs, m) =>
         match slotSetBool k (m.Endianness.uint32 bs != 0) with
         | some v => .ok (some v, m, none)
         | none => .ok (none, m, some .valueError))
    else if c = 'n' ∨ c = 'i' ∨ c = 'x' then
      -- SetInt panics with *ValueError on every slot kind here
      let (w, r) : Nat × Nat := if c = 'n' then (2, 2) else if c = 'i' then (4, 4) else (8, 8)
      let m := m.Round r
      (match m.Next w with
       | .error (.err e) => .ok (none, m, some e)
       | .error p => .error p
       | .ok (_, m) => .ok (none, m, some .valueError))
    else if c = 'q' then
      let m := m.Round 2
      (match m.Next 2 with
       | .error (.err e) => .ok (none, m, some e)
       | .error p => .error p
       | .ok (bs, m) =>
         match slotSetUint k (m.Endianness.uint16 bs) with
         | some v => .ok (some v, m, none)
         | none => .ok (none, m, some .valueError))
    else if c = 'u' then
      let m := m.Round 4
      (match m.Next 4 with
       | .error (.err e) => .ok (none, m, some e)
       | .error p => .error p
       | .ok (bs, m) =>
         match slotSetUint k (m.Endianness.uint32 bs) with
         | some v => .ok (some v, m, none)
         | none => .ok (none, m, some .valueError))
    else if c = 't' then
      -- note the source bug kept faithfully: `case 't'` rounds to 4, not 8
      let m := m.Round 4
      (match m.Next 8 with
       | .error (.err e) => .ok (none, m, some e)
       | .error p => .error p
       | .ok (bs, m) =>
         match slotSetUint k (m.Endianness.uint64 bs) with
         | some v => .ok (some v, m, none)
         | none => .ok (none, m, some .valueError))
    else if c = 'd' then
      let m := m.Round 8
      (match m.Next 8 with
       | .error (.err e) => .ok (none, m, some e)
       | .error p => .error p
       | .ok (_, m) => .ok (none, m, some .valueError))  -- SetFloat: no float slots
    else if c = 's' ∨ c = 'o' then
      let m := m.Round 4
      (match m.Next 4 with
       | .error (.err e) => .ok (none, m, some e)
       | .error p => .error p
       | .ok (bs, m) =>
         let l := m.Endianness.uint32 bs
         match m.Next (l + 1) with
         | .error (.err e) => .ok (none, m, some e)
         | .error p => .error p
         | .ok (sb, m) =>
           match slotSetString k (sb.take l) with
           | some v => .ok (some v, m, none)
           | none => .ok (none, m, some .valueError))
    else if c = 'g' then
      (match m.Next 1 with
       | .error (.err e) => .ok (none, m, some e)
       | .error p => .error p
       | .ok (lb, m) =>
         let l := lb.headD 0
         match m.Next (l + 1) with
         | .error (.err e) => .ok (none, m, some e)
         | .error p => .error p
         | .ok (sb, m) =>
           match slotSetString k (sb.take l) with
           | some v => .ok (some v, m, none)
           | none => .ok (none, m, some .valueError))
    else
      .error (.str "unsupported")

/-- `msgData.scan` (marshall.go lines 481–491) into a slot: parse the
one-type signature string, reject trailing characters, then `scanValue`. -/
def msgData.scan (m : msgData) (sigstr : String) (k : slotKind) :
    Except goPanic (Option goVal × msgData × Option goError) :=
  match parseOneSignature sigstr with
  | .ok (sig, rest) =>
    if rest ≠ "" then .ok (none, m, some (.trailingSignature rest))
    else m.scanValue sig k
  | .error (e, rest) =>
    if rest ≠ "" then .ok (none, m, some (.trailingSignature rest))
    else .ok (none, m, some e)

/-- One byte field of the fixed-header scan (`scanValue` case `'y'` with its
own recover: on an out-of-range read the target keeps its zero value and
the offset does not move). -/
def scanByteSwallow (m : msgData) : Nat × msgData :=
  if m.Idx < m.Data.length then (m.Data.getD m.Idx 0, { m with Idx := m.Idx + 1 })
  else (0, m)

/-- One `uint32` field of the fixed-header scan (`scanValue` case `'u'`,
recover swallowed by the struct loop). -/
def scanU32Swallow (m : msgData) : Nat × msgData :=
  let m := m.Round 4
  match m.Next 4 with
  | .ok (bs, m') => (m'.Endianness.uint32 bs, m')
  | .error _ => (0, m)

/-- `msg.scan("(yyyyuu)", &hdr)`: the struct case of `scanValue` 8-aligns
and scans the six fields in order, each nested `scanValue` recovering its
own panics (their errors are discarded by the loop, and the final
`sig.(basicSig)` conversion error is discarded by `scanHeader`). -/
def msgData.scanHeaderFixed (m : msgData) : msgHeader × msgData :=
  let m := m.Round 8
  let (e, m) := scanByteSwallow m
  let (t, m) := scanByteSwallow m
  let (f, m) := scanByteSwallow m
  let (p, m) := scanByteSwallow m
  let (bl, m) := scanU32Swallow m
  let (se, m) := scanU32Swallow m
  ({ Endianness := e, Type' := t, Flags := f, Protocol := p,
     BodyLength := bl, Serial := se }, m)

/-- The reflect slot kind of header field `b` (`fldVal.Field(b-1)`):
fields 1–4 and 6–8 are strings, 5 and 9 are `uint32`. -/
def slotOf (b : Nat) : slotKind :=
  if b = 5 ∨ b = 9 then .u32Slot else .strSlot

/-- Store a scanned value into header field `b` (the reflect
`fldVal.Field(int(b)-1)` target); `none` (a failed store) leaves the field
unchanged. -/
def msgHeaderFields.setField (flds : msgHeaderFields) (b : Nat) (v : Option goVal) :
    msgHeaderFields :=
  match b, v with
  | 1, some (strV s) => { flds with Path := s }
  | 2, some (strV s) => { flds with Interface := s }
  | 3, some (strV s) => { flds with Member := s }
  | 4, some (strV s) => { flds with ErrorName := s }
  | 5, some (u32V n) => { flds with ReplySerial := n }
  | 6, some (strV s) => { flds with Destination := s }
  | 7, some (strV s) => { flds with Sender := s }
  | 8, some (strV s) => { flds with Signature := s }
  | 9, some (u32V n) => { flds with NumFD := n }
  | _, _ => flds

/-- The field loop of `scanHeader` (marshall.go lines 434–446).  Per
iteration: 8-align, read the field code byte (an out-of-range read is
caught by `scanHeader`'s recover and returned), reject codes above 9 with
the fatal `invalid header field ID` error, read the variant signature
(errors discarded), then `fldVal.Field(int(b)-1)` — which for code 0
panics with a string that escapes — and scan the value into the field
(errors discarded, string panics escape). -/
def scanHeaderLoopF : Nat → msgData → Nat → msgHeaderFields →
    Except goPanic (msgHeaderFields × msgData × Option goError)
  | 0, _, _, _ => .error .diverge
  | fuel + 1, m, fldEnd, flds =>
    if m.Idx < fldEnd then
      let m := m.Round 8
      match m.Next 1 with
      | .error (.err e) => .ok (flds, m, some e)
      | .error p => .error p
      | .ok (bs, m) =>
        let b := bs.headD 0
        if b > 9 then .ok (flds, m, some (.invalidHeaderFieldId b))
        else
          match m.scan "g" .strSlot with
          | .error p => .error p
          | .ok (sv, m, _) =>
            let fldSig : List Nat := match sv with | some (strV s) => s | _ => []
            if b = 0 then .error (.str "reflect: Field index out of range")
            else
              match m.scan (String.mk (fldSig.map Char.ofNat)) (slotOf b) with
              | .error p => .error p
              | .ok (v, m, _) => scanHeaderLoopF fuel m fldEnd (flds.setField b v)
    else .ok (flds, m, none)

/-- `scanHeader` (marshall.go lines 425–448): scan the fixed header, read
the fields-array length (an out-of-range read is caught by the deferred
`catchPanicErr` and returned), then run the field loop.  String panics
escape even the recover. -/
def msgData.scanHeader (m : msgData) :
    Except goPanic (msgHeader × msgHeaderFields × Option goError × msgData) :=
  let (hdr, m) := m.scanHeaderFixed
  let m := m.Round 4
  match m.Next 4 with
  | .error (.err e) => .ok (hdr, {}, some e, m)
  | .error p => .error p
  | .ok (bs, m) =>
    let fldLen := m.Endianness.uint32 bs
    let fldEnd := m.Idx + fldLen
    match scanHeaderLoopF (m.Data.length + 2) m fldEnd {} with
    | .error p => .error p
    | .ok (flds, m, err) => .ok (hdr, flds, err, m)

/-! ## Framing: `popMessage` (dbus.go lines 256–299) and the header-size
helpers of rawmessage.go -/

/-- The tail of `popMessage` (dbus.go lines 290–298): decode the assembled
buffer's header for the reply serial (errors of that scan are discarded;
its string panics escape) and return the buffer. -/
def popFinish (msg : List Nat) (order : ByteOrder) :
    Except goPanic (List Nat × Nat × Option goError) :=
  match ({ Endianness := order, Data := msg, Idx := 0 } : msgData).scanHeader with
  | .error p => .error p
  | .ok (_, flds, _, _) => .ok (msg, flds.ReplySerial, none)

/-- `popMessage(r)` on the modelled byte stream: peek 16 bytes, choose the
byte order from the endianness tag, read the body size (offset 4) and
fields-array size (offset 12), round the fields size up to 8 (a `uint32`
computation), allocate and fill a buffer of `16 + fldSize + bodySize`
bytes, then decode the header for the reply serial (`popFinish`).
Returned errors are in the `Option goError`. -/
def popMessage (stream : List Nat) :
    Except goPanic (List Nat × Nat × Option goError) :=
  if stream.length < 16 then .ok ([], 0, some .errPeekShort)
  else
    let header := stream.take 16
    let tag := header.headD 0
    if tag = 108 ∨ tag = 66 then
      let order : ByteOrder := if tag = 108 then .le else .be
      let bodySize := order.uint32 (header.drop 4)
      let fldSize0 := order.uint32 (header.drop 12)
      let fldSize := (fldSize0 + 7) % 4294967296 / 8 * 8
      let total := 16 + fldSize + bodySize
      if stream.length < total then .ok ([], 0, some .errIncompleteMessage)
      else popFinish (stream.take total) order
    else .ok ([], 0, some (.errMalformedEndianness tag))

/-- `MinimumHeaderSize` (rawmessage.go). -/
def MinimumHeaderSize : Nat := 16

/-- `_GetByte(buff, index)` (part_003 lines 169–174). -/
def _GetByte (buff : List Nat) (index : Nat) : Except goError Nat :=
  if buff.length ≤ index then .error .indexError
  else .ok (buff.getD index 0)

/-- `_GetInt32(buff, index)` (part_003 lines 175–185): bounds check, then a
little-endian signed 32-bit read. -/
def _GetInt32 (buff : List Nat) (index : Nat) : Except goError Int :=
  if buff.length ≤ index + 3 then .error .indexError
  else
    let x := ByteOrder.le.uint32 (buff.drop index)
    .ok (if x < 2147483648 then (x : Int) else (x : Int) - 4294967296)

/-- `headerSigFieldsLen` (rawmessage.go lines 89–92): the fields-array
length word at offset 12. -/
def headerSigFieldsLen (sig : List Nat) : Except goError Int := _GetInt32 sig 12

/-- `headerSigBodyLen` (rawmessage.go lines 94–97): the body length word at
offset 4. -/
def headerSigBodyLen (sig : List Nat) : Except goError Int := _GetInt32 sig 4

/-- `headerSigPadLen` (rawmessage.go lines 99–107). -/
def headerSigPadLen (sig : List Nat) : Except goError Int := do
  let fieldsLen ← headerSigFieldsLen sig
  let headerLen : Int := MinimumHeaderSize + fieldsLen
  .ok (_Align 8 headerLen - headerLen)

/-- `headerSigMsgSize` (rawmessage.go lines 109–127):
`16 + fields_len + pad + body_len`. -/
def headerSigMsgSize (sig : List Nat) : Except goError Int := do
  let fieldArrLen ← headerSigFieldsLen sig
  let pad ← headerSigPadLen sig
  let bodyLen ← headerSigBodyLen sig
  .ok (MinimumHeaderSize + fieldArrLen + pad + bodyLen)

/-! ## The serial counter (message.go lines 57–75) -/

/-- `generateSerial` (message.go lines 59–61):
`atomic.AddUint32(&messageSerial, 1)` — increment the `uint32` counter
(wrapping) and return the new value.  The pair is (new counter state,
returned serial). -/
def generateSerial (messageSerial : Nat) : Nat × Nat :=
  let c := (messageSerial + 1) % 4294967296
  (c, c)

/-- The counter state after `n` calls of `generateSerial` (each `NewMessage`
performs exactly one), starting from the initial `messageSerial = 0`; the
serial assigned by the `n`-th message is `serialAfter n`. -/
def serialAfter : Nat → Nat
  | 0 => 0
  | n + 1 => (generateSerial (serialAfter n)).2

/-! ## Concrete data for the theorems -/

/-- The `Hello` method call of `TestMarshal` (message_test.go): method-call,
serial 1, path `/org/freedesktop/DBus`, destination and interface
`org.freedesktop.DBus`, member `Hello`, no flags, no body. -/
def helloMessage : Message :=
  { Type' := 1, Flags := 0, Protocol := 1, serial := 1,
    Path := strBytes "/org/freedesktop/DBus",
    Dest := strBytes "org.freedesktop.DBus",
    Iface := strBytes "org.freedesktop.DBus",
    Member := strBytes "Hello" }

/-- The expected `Hello` frame (the `teststr` of `TestMarshal` and
`TestUnmarshal` in message_test.go). -/
def helloFrame : List Nat :=
  strBytes "l\x01\x00\x01\x00\x00\x00\x00\x01\x00\x00\x00m\x00\x00\x00\x01\x01o\x00\x15\x00\x00\x00/org/freedesktop/DBus\x00\x00\x00\x02\x01s\x00\x14\x00\x00\x00org.freedesktop.DBus\x00\x00\x00\x00\x03\x01s\x00\x05\x00\x00\x00Hello\x00\x00\x00\x06\x01s\x00\x14\x00\x00\x00org.freedesktop.DBus\x00\x00\x00\x00"

/-- A little-endian 16-byte fixed header (serial 7, body length 0) whose
fields-array length word is `f`; nothing follows it, so any `f > 0`
declares more field bytes than the buffer holds. -/
def truncHeader (f : Nat) : List Nat :=
  strBytes "l\x01\x00\x01" ++ le32 0 ++ le32 7 ++ le32 f

/-- A frame whose first header field has code 10 and which is followed by a
well-formed reply-serial field (code 5, value 7). -/
def frame10 : List Nat :=
  strBytes "l\x01\x00\x01" ++ le32 0 ++ le32 7 ++ le32 16 ++
    [10, 1, 117, 0] ++ le32 9 ++ [5, 1, 117, 0] ++ le32 7

/-- A frame whose single header field has the invalid code 0 (with a `u`
variant). -/
def frame0 : List Nat :=
  strBytes "l\x01\x00\x01" ++ le32 0 ++ le32 7 ++ le32 8 ++
    [0, 1, 117, 0] ++ le32 9

/-- The `a(su)` signature of `TestAppendValue` (marshall_test.go), obtained
through the parser as in the test. -/
def asuSig : signature :=
  match parseOneSignature "a(su)" with
  | .ok (sig, _) => sig
  | .error _ => basicSig ' '

/-- The `a(su)` value of `TestAppendValue`:
`[("test1",1), ("test2",2), ("test3",3)]`. -/
def asuVal : goVal :=
  sliceV [sliceV [strV (strBytes "test1"), u32V 1],
          sliceV [strV (strBytes "test2"), u32V 2],
          sliceV [strV (strBytes "test3"), u32V 3]]

/-- The bytes `TestAppendValue` expects for the `a(su)` example (`ref2`):
length word 0x34 = 52, four padding bytes, then three 16-byte structs. -/
def asuRef : List Nat :=
  strBytes "\x34\x00\x00\x00\x00\x00\x00\x00\x05\x00\x00\x00test1\x00\x00\x00\x01\x00\x00\x00\x05\x00\x00\x00test2\x00\x00\x00\x02\x00\x00\x00\x05\x00\x00\x00test3\x00\x00\x00\x03\x00\x00\x00"

/-- A message whose body is a single boolean (`Sig = "b"`), with empty
`ErrorName` and no `Sender`, used to separate the two marshallers. -/
def boolBodyMessage : Message :=
  { Type' := 1, Protocol := 1, serial := 1, Sig := "b", Params := [boolV true] }

/-- What the buffer-based marshaller produces for `boolBodyMessage`. -/
def boolBodyFrameB : List Nat :=
  [108, 1, 0, 1, 4, 0, 0, 0, 1, 0, 0, 0, 7, 0, 0, 0,
   8, 1, 103, 0, 1, 98, 0, 0, 1, 0, 0, 0]

/-! ## Notions used to state the invariant lemmas -/

/-- The cursor argument of an `appendCall`. -/
def appendCall.cur : appendCall → msgData
  | .value m _ _ => m
  | .elems _ _ m => m
  | .dictElems _ _ _ m => m
  | .structFields _ _ _ m => m

/-- `growsFrom m m'`: the cursor `m'` was obtained from `m` by appending
bytes (and possibly patching beyond `m`'s original length): the original
data is preserved as a prefix and the byte order is unchanged. -/
def growsFrom (m m' : msgData) : Prop :=
  m.Data.length ≤ m'.Data.length ∧
  m'.Data.take m.Data.length = m.Data ∧
  m'.Endianness = m.Endianness

/-- Zero-padding a buffer to an alignment boundary — the canonical form
both the cursor writes (`Round` then `Put`) and the buffer writes
(`_AppendAlign`) reduce to; used to compare the two marshallers. -/
def padTo (a : Nat) (l : List Nat) : List Nat :=
  l ++ List.replicate (goAlign a l.length - l.length) 0

/-- The bytes of one string-valued header field (code byte, `g` signature,
4-aligned length word, bytes, NUL) as emitted at buffer position `pos` —
identical for both marshallers.  The position after the four
code/signature bytes is `goAlign 8 pos + 4`, already 4-aligned, so the
value needs no further padding. -/
def fieldSeg (pos code sc : Nat) (s : List Nat) : List Nat :=
  List.replicate (goAlign 8 pos - pos) 0 ++ [code, 1, sc, 0] ++ le32 s.length ++ s ++ [0]

/-- The bytes of one `u32`-valued header field at buffer position `pos`. -/
def u32FieldSeg (pos code : Nat) (n : Nat) : List Nat :=
  List.replicate (goAlign 8 pos - pos) 0 ++ [code, 1, 117, 0] ++ le32 n

/-- The header-fields bytes emitted from buffer position `pos` for a
message with empty `ErrorName`, `Sender` and body signature: path,
interface, member, reply serial and destination, each skipped when zero. -/
def fieldSegs (pos : Nat) (path iface member : List Nat) (rs : Nat) (dest : List Nat) :
    List Nat :=
  let s1 := if path.isEmpty then [] else fieldSeg pos 1 111 path
  let pos := pos + s1.length
  let s2 := if iface.isEmpty then [] else fieldSeg pos 2 115 iface
  let pos := pos + s2.length
  let s3 := if member.isEmpty then [] else fieldSeg pos 3 115 member
  let pos := pos + s3.length
  let s5 := if rs == 0 then [] else u32FieldSeg pos 5 rs
  let pos := pos + s5.length
  let s6 := if dest.isEmpty then [] else fieldSeg pos 6 115 dest
  s1 ++ s2 ++ s3 ++ s5 ++ s6

/-- The frame both marshallers produce for a message with empty body
signature, no parameters, and empty `ErrorName`: fixed header (body length
0), serial, fields-array length word, the `fieldSegs` bytes, and the final
8-alignment padding. -/
def emptyBodyFrame (T F P ser r : Nat) (path iface member dest : List Nat) : List Nat :=
  padTo 8 ([108, T % 256, F % 256, P % 256] ++
    (le32 0 ++ (le32 ser ++ (le32 (fieldSegs 16 path iface member r dest).length ++
      fieldSegs 16 path iface member r dest))))

/-- A message with empty body signature, no parameters and empty
`ErrorName` (the shape on which the two marshaller variants are compared). -/
def emptyBodyMsg (T F P ser r : Nat) (path iface member dest : List Nat) : Message :=
  { Type' := T, Flags := F, Protocol := P, Path := path, Dest := dest,
    Iface := iface, Member := member, Sig := "", serial := ser,
    replySerial := r, ErrorName := [], Params := [] }

/-! # Theorems -/

set_option maxRecDepth 1000000

/-- **C1** (code bug).  The specification's round-trip law covers
dictionary types `a{KV}`, and the renderer side exists (`dictSig.String`
prints `a{KV}`), but `parseOneSignature` never produces a `dictSig`: its
dictionary branch is an empty stub (`// Dictionary.`) that falls through to
the `invalid signature` error.  Evaluating the parser at the failing input
`"a{su}"` yields that error, while the renderer maps the corresponding
`dictSig` node back to exactly that string. -/
theorem dict_signatures_rejected_by_parseOneSignature :
    parseOneSignature "a\x7bsu\x7d" = .error (.invalidSignature "a\x7bsu\x7d", "") ∧
    (dictSig 's' (basicSig 'u')).String = "a\x7bsu\x7d" :=
  ⟨rfl, rfl⟩

/-- **C2** (confirmed).  Marshalling the `Hello` method call (serial 1,
path `/org/freedesktop/DBus`, interface and destination
`org.freedesktop.DBus`, member `Hello`, no flags, no body) produces exactly
the expected frame: the 16 fixed-header bytes
`l 01 00 01 | 00000000 | 01000000 | 6d000000`, the fields array starting
with the path field `01 01 6f 00 15000000 /org/freedesktop/DBus 00` (plus
its padding), and the interface, member and destination fields at the
8-byte-aligned offsets 48, 80 and 96. -/
theorem hello_marshal_frame :
    Message._Marshal helloMessage = .ok helloFrame ∧
    helloFrame.take 16 = strBytes "l\x01\x00\x01\x00\x00\x00\x00\x01\x00\x00\x00m\x00\x00\x00" ∧
    (helloFrame.drop 16).take 32 =
      strBytes "\x01\x01o\x00\x15\x00\x00\x00/org/freedesktop/DBus\x00\x00\x00" ∧
    (helloFrame.drop 48).take 32 =
      strBytes "\x02\x01s\x00\x14\x00\x00\x00org.freedesktop.DBus\x00\x00\x00\x00" ∧
    (helloFrame.drop 80).take 16 =
      strBytes "\x03\x01s\x00\x05\x00\x00\x00Hello\x00\x00\x00" ∧
    helloFrame.drop 96 =
      strBytes "\x06\x01s\x00\x14\x00\x00\x00org.freedesktop.DBus\x00\x00\x00\x00" ∧
    48 % 8 = 0 ∧ 80 % 8 = 0 ∧ 96 % 8 = 0 :=
  ⟨rfl, rfl, rfl, rfl, rfl, rfl, rfl, rfl, rfl⟩

/-- **C3** (counterexample).  Encoding the repository test's own `a(su)`
value writes 52 as the array length word, while the element payload (the
three structs, which begin after the 4 alignment-padding bytes) is only 48
bytes — the declared length includes the padding, contradicting the claim
that it counts the element payload only. -/
theorem array_length_counts_padding_cex :
    appendValue { Endianness := .le } asuSig asuVal =
      .ok ({ Endianness := .le, Data := asuRef, Idx := 56 }, none) ∧
    ByteOrder.le.uint32 (asuRef.take 4) = 52 ∧
    (asuRef.drop 8).length = 48 ∧
    (52 : Nat) ≠ 48 :=
  ⟨rfl, rfl, rfl, by decide⟩

/-- **C4** (counterexample).  `Parse` has no `recover`: decoding `u` from
an empty buffer makes `msgData.Next` panic with
`errOutOfRange{Offset: 4, Length: 0}`, and that panic escapes `Parse` to
its caller (the `Except.error` of the model) instead of being returned as
an error value, contradicting the claim that every decode operation
returns the truncation error to the caller without a panic escaping. -/
theorem parse_panics_on_truncation_cex :
    Parse [] "u" 0 = .error (.err (.errOutOfRange 4 0)) :=
  rfl

/-- **C5** (counterexample).  A header field code of 10 is fatal: the field
loop returns the `invalid header field ID: 10` error immediately, so the
well-formed reply-serial field (value 7) that follows in `frame10` is never
stored — decoding does not continue, contradicting the claim that codes
≥ 10 are ignored with a warning. -/
theorem header_field_code10_fatal_cex :
    msgData.scanHeader { Endianness := .le, Data := frame10, Idx := 0 } =
      .ok ({ Endianness := 108, Type' := 1, Flags := 0, Protocol := 1,
             BodyLength := 0, Serial := 7 },
           {}, some (.invalidHeaderFieldId 10),
           { Endianness := .le, Data := frame10, Idx := 17 }) ∧
    ({} : msgHeaderFields).ReplySerial = 0 ∧
    ByteOrder.le.uint32 (frame10.drop 28) = 7 :=
  ⟨rfl, rfl, rfl⟩

/-- **C5** (amended).  Header-field code handling as the code implements
it: codes 1–9 are recognised and stored into the corresponding field (the
`Hello` frame's path, interface, member and destination all land in their
fields with no error); a code ≥ 10 aborts decoding with the fatal
`invalid header field ID` error; code 0 reaches `fldVal.Field(-1)`, whose
string panic is re-panicked by `catchPanicErr` and escapes `scanHeader`. -/
theorem header_field_code_handling :
    msgData.scanHeader { Endianness := .le, Data := frame0, Idx := 0 } =
      .error (.str "reflect: Field index out of range") ∧
    msgData.scanHeader { Endianness := .le, Data := frame10, Idx := 0 } =
      .ok ({ Endianness := 108, Type' := 1, Flags := 0, Protocol := 1,
             BodyLength := 0, Serial := 7 },
           {}, some (.invalidHeaderFieldId 10),
           { Endianness := .le, Data := frame10, Idx := 17 }) ∧
    msgData.scanHeader { Endianness := .le, Data := helloFrame, Idx := 0 } =
      .ok ({ Endianness := 108, Type' := 1, Flags := 0, Protocol := 1,
             BodyLength := 0, Serial := 1 },
           { Path := strBytes "/org/freedesktop/DBus",
             Interface := strBytes "org.freedesktop.DBus",
             Member := strBytes "Hello",
             Destination := strBytes "org.freedesktop.DBus" },
           none,
           { Endianness := .le, Data := helloFrame, Idx := 125 }) :=
  ⟨rfl, rfl, rfl⟩

/-- **C6** (counterexample).  Decoding the u32 value 2 at a boolean
position succeeds and yields `true` — no `InvalidBoolean` error exists in
the code, contradicting the claim that any value other than 0 and 1 makes
the decoder fail. -/
theorem boolean_decode_accepts_two_cex :
    Parse [2, 0, 0, 0] "b" 0 = .ok ([boolV true], 4, none) :=
  rfl

/-- **C8** (counterexample).  For the `Hello` frame (fields length 109,
body length 0) `popMessage` assembles a buffer of exactly
`round_up_8(16 + 109) + 0 = 128` bytes — which is `frame_size`, not
`frame_size + 16 = 144` as the claim states. -/
theorem popMessage_size_not_plus16_cex :
    popMessage helloFrame = .ok (helloFrame, 0, none) ∧
    helloFrame.length = 128 ∧
    ByteOrder.le.uint32 ((helloFrame.take 16).drop 12) = 109 ∧
    goAlign 8 (16 + 109) + 0 = 128 ∧
    helloFrame.length ≠ goAlign 8 (16 + 109) + 0 + 16 :=
  ⟨rfl, rfl, rfl, rfl, by decide⟩

/-- **C9** (counterexample).  On a message whose body signature is `"b"`
(ErrorName empty, no Sender), the reflection-based marshaller panics with
`unsupported type 'b'` (its `appendValue` supports only `y`, `s`, `u`,
`i`), while the buffer-based marshaller produces a complete frame — the
two do not produce identical byte sequences for every message. -/
theorem marshal_variants_disagree_on_bool_cex :
    Message._Marshal boolBodyMessage = .error (.err (.unsupportedType 98)) ∧
    Message._MarshalB boolBodyMessage = .ok boolBodyFrameB ∧
    (.error (.err (.unsupportedType 98)) : Except goPanic (List Nat)) ≠ .ok boolBodyFrameB :=
  ⟨rfl, rfl, fun h => Except.noConfusion h⟩

/-- **C10** (confirmed).  `parseSignature` applied to the empty string
returns the empty sequence and no error, while `parseOneSignature` applied
to the empty string fails with the `missing type` error. -/
theorem empty_signature_top_level :
    parseSignature "" = .ok [] ∧ parseOneSignature "" = .error (.missingType, "") :=
  ⟨rfl, rfl⟩

/-- Decoding a little-endian 32-bit word recovers the encoded value. -/
theorem uint32_le32 (v : Nat) (h : v < 4294967296) :
    ByteOrder.le.uint32 (le32 v) = v := by
  simp [ByteOrder.uint32, le32]
  omega

/-- The serial counter after `n` calls is `n` modulo `2^32`. -/
theorem serialAfter_mod (n : Nat) : serialAfter n = n % 4294967296 := by
  induction n with
  | zero => rfl
  | succ n ih =>
    show (serialAfter n + 1) % 4294967296 = _
    rw [ih]
    omega

/-- **C7** (counterexample).  The serial counter does not skip zero at the
`uint32` wrap-around: the `2^32`-th `NewMessage` call is assigned serial 0,
contradicting the claim that no assigned serial is 0. -/
theorem serial_wraps_to_zero_cex : serialAfter 4294967296 = 0 := by
  rw [serialAfter_mod]

/-- **C7** (amended).  Before the `uint32` wrap-around the counter behaves
as claimed: any two `NewMessage` calls among the first `2^32 - 1` receive
distinct serials, and none of them receives 0.  (At call `2^32` the counter
wraps to 0 — zero is not skipped.) -/
theorem serials_distinct_nonzero_before_wrap (i j : Nat) (h0 : 0 < i) (hij : i < j)
    (hj : j < 4294967296) : serialAfter i ≠ 0 ∧ serialAfter i ≠ serialAfter j := by
  rw [serialAfter_mod, serialAfter_mod]
  omega

/-- Witness for the amended C7 theorem at calls 1 and 2. -/
theorem serials_distinct_nonzero_before_wrap_witness :
    serialAfter 1 ≠ 0 ∧ serialAfter 1 ≠ serialAfter 2 :=
  serials_distinct_nonzero_before_wrap 1 2 (by decide) (by decide) (by decide)

/-- Evaluating the decoder on the four bytes of a boolean takes three fuel
steps (`Parse` body, the `'b'` case, the empty tail). -/
theorem readGoF_parse_b (fuel v : Nat) :
    readGoF (fuel + 3) (.parse (le32 v) "b" 0) =
      .ok ([boolV (ByteOrder.le.uint32 (le32 v) != 0)],
           { Endianness := .le, Data := le32 v, Idx := 4 }, none) := by
  have hsig : parseSignature "b" = .ok [basicSig 'b'] := rfl
  unfold readGoF
  rw [hsig]
  simp only [msgData.Round, goAlign, msgData.Next, le32, List.length_cons, List.length_nil]
  unfold readGoF
  simp only [msgData.Round, goAlign, msgData.Next, List.length_cons, List.length_nil]
  unfold readGoF
  rfl

/-- **C6** (amended).  A boolean on the wire is a u32, but the decoder does
not reject values other than 0 and 1: for every 32-bit value `v`,
`parseVariants` (via `Parse`) and `scanValue` both succeed and produce the
boolean `v ≠ 0` with no error; no `InvalidBoolean` error exists. -/
theorem boolean_decode_nonzero_true (v : Nat) (h : v < 4294967296) :
    Parse (le32 v) "b" 0 = .ok ([boolV (v != 0)], 4, none) ∧
    msgData.scanValue { Endianness := .le, Data := le32 v, Idx := 0 } (basicSig 'b') .boolSlot =
      .ok (some (boolV (v != 0)),
           { Endianness := .le, Data := le32 v, Idx := 4 }, none) := by
  have hu : ByteOrder.le.uint32 (le32 v) = v := uint32_le32 v h
  constructor
  · unfold Parse
    rw [show unmarshalFuel = 999997 + 3 from rfl, readGoF_parse_b, hu]
  · simp [msgData.scanValue, msgData.Round, msgData.Next, goAlign, le32, slotSetBool,
      ByteOrder.uint32, hu]
    have hv : v % 256 + 256 * (v / 256 % 256) + 65536 * (v / 65536 % 256)
        + 16777216 * (v / 16777216 % 256) = v := by omega
    rw [hv]

/-- Witness for the amended C6 theorem at the value 2. -/
theorem boolean_decode_nonzero_true_witness :
    Parse (le32 2) "b" 0 = .ok ([boolV (2 != 0)], 4, none) :=
  (boolean_decode_nonzero_true 2 (by decide)).1

/-- An out-of-range `Next` panics with the end offset and the buffer
length. -/
theorem msgData.next_oob (m : msgData) (n : Nat) (h : m.Data.length < m.Idx + n) :
    m.Next n = .error (.err (.errOutOfRange (m.Idx + n) m.Data.length)) := by
  unfold msgData.Next
  rw [if_pos h]

/-- **C4** (amended).  Truncation handling as the code implements it: every
read past the end of the buffer is detected by `msgData.Next` before any
memory is touched, and the `errOutOfRange{offset, length}` value carries
the offending end offset and the buffer length.  Decoders with a recover
(`scanValue`/`scan` and `scanHeader`, via `defer catchPanicErr`) return
that error to their caller — scanning a `u` whose 4 bytes are missing
returns `errOutOfRange` as an error value, and decoding a 16-byte frame
whose fields-array length word (7) exceeds the received bytes returns
`errOutOfRange{17, 16}` with all fields left empty.  `Parse`, however, has
no recover, so its panic escapes to its caller (see the C4
counterexample). -/
theorem scanHeader_truncation_returns_error (m : msgData) (n : Nat)
    (hn : m.Data.length < m.Idx + n) (h4 : m.Data.length < goAlign 4 m.Idx + 4) :
    m.Next n = .error (.err (.errOutOfRange (m.Idx + n) m.Data.length)) ∧
    m.scanValue (.basicSig 'u') .u32Slot =
      .ok (none, m.Round 4, some (.errOutOfRange (goAlign 4 m.Idx + 4) m.Data.length)) ∧
    msgData.scanHeader { Endianness := .le, Data := truncHeader 7, Idx := 0 } =
      .ok ({ Endianness := 108, Type' := 1, Flags := 0, Protocol := 1,
             BodyLength := 0, Serial := 7 },
           {}, some (.errOutOfRange 17 16),
           { Endianness := .le, Data := truncHeader 7, Idx := 16 }) := by
  refine ⟨msgData.next_oob m n hn, ?_, rfl⟩
  have step : m.scanValue (.basicSig 'u') .u32Slot =
      (match (m.Round 4).Next 4 with
       | .error (.err e) => .ok (none, m.Round 4, some e)
       | .error p => .error p
       | .ok (bs, m') =>
         match slotSetUint .u32Slot (m'.Endianness.uint32 bs) with
         | some v => .ok (some v, m', none)
         | none => .ok (none, m', some .valueError)) := rfl
  have hnext : (m.Round 4).Next 4 =
      .error (.err (.errOutOfRange (goAlign 4 m.Idx + 4) m.Data.length)) :=
    msgData.next_oob (m.Round 4) 4 h4
  rw [step, hnext]

/-- Witness for the amended C4 theorem: reading 4 bytes from an empty
buffer. -/
theorem scanHeader_truncation_returns_error_witness :
    ({ Endianness := .le, Data := [], Idx := 0 } : msgData).Next 4 =
      .error (.err (.errOutOfRange 4 0)) ∧
    ({ Endianness := .le, Data := [], Idx := 0 } : msgData).scanValue
        (.basicSig 'u') .u32Slot =
      .ok (none, ({ Endianness := .le, Data := [], Idx := 0 } : msgData).Round 4,
           some (.errOutOfRange (goAlign 4 0 + 4) 0)) ∧
    msgData.scanHeader { Endianness := .le, Data := truncHeader 7, Idx := 0 } =
      .ok ({ Endianness := 108, Type' := 1, Flags := 0, Protocol := 1,
             BodyLength := 0, Serial := 7 },
           {}, some (.errOutOfRange 17 16),
           { Endianness := .le, Data := truncHeader 7, Idx := 16 }) :=
  scanHeader_truncation_returns_error { Endianness := .le, Data := [], Idx := 0 } 4
    (by decide) (by decide)

/-- A little-endian 32-bit read sees only the first four bytes. -/
theorem uint32_le32_append (x : Nat) (junk : List Nat) (h : x < 4294967296) :
    ByteOrder.le.uint32 (le32 x ++ junk) = x := by
  simp [ByteOrder.uint32, le32, List.getD]
  omega

/-- 8-alignment commutes with the 16-byte fixed-header offset. -/
theorem goAlign8_split (f : Nat) : goAlign 8 (16 + f) = 16 + goAlign 8 f := by
  unfold goAlign
  norm_num
  omega

/-- Binding a successful `Except` computation applies the continuation. -/
theorem except_bind_ok {ε α β : Type} (a : α) (g : α → Except ε β) :
    ((Except.ok a : Except ε α) >>= g) = g a := rfl

/-- `headerSigMsgSize` on a fixed header whose body-length word is `b` and
whose fields-length word is `f` computes `round_up_8(16 + f) + b`. -/
theorem headerSigMsgSize_words (t fl p b s f : Nat)
    (hb : b < 2147483648) (hf : f < 2147483648) :
    headerSigMsgSize ([108, t, fl, p] ++ (le32 b ++ (le32 s ++ le32 f))) =
      .ok ((goAlign 8 (16 + f) + b : Nat) : Int) := by
  have hbody : ByteOrder.le.uint32 (le32 b ++ (le32 s ++ le32 f)) = b :=
    uint32_le32_append b _ (by omega)
  have hfldw : ByteOrder.le.uint32 (le32 f) = f := uint32_le32 f (by omega)
  have h12 : _GetInt32 ([108, t, fl, p] ++ (le32 b ++ (le32 s ++ le32 f))) 12 =
      .ok (if ByteOrder.le.uint32 (le32 f) < 2147483648
           then (ByteOrder.le.uint32 (le32 f) : Int)
           else (ByteOrder.le.uint32 (le32 f) : Int) - 4294967296) := rfl
  have h4 : _GetInt32 ([108, t, fl, p] ++ (le32 b ++ (le32 s ++ le32 f))) 4 =
      .ok (if ByteOrder.le.uint32 (le32 b ++ (le32 s ++ le32 f)) < 2147483648
           then (ByteOrder.le.uint32 (le32 b ++ (le32 s ++ le32 f)) : Int)
           else (ByteOrder.le.uint32 (le32 b ++ (le32 s ++ le32 f)) : Int) - 4294967296) := rfl
  rw [hfldw, if_pos hf] at h12
  rw [hbody, if_pos hb] at h4
  unfold headerSigMsgSize headerSigPadLen headerSigFieldsLen headerSigBodyLen
  rw [h12, h4]
  simp only [except_bind_ok]
  simp only [Except.ok.injEq]
  unfold MinimumHeaderSize _Align goAlign
  norm_num
  rw [Int.fdiv_eq_tdiv (by omega) (by omega), Int.tdiv_eq_ediv (by omega) (by omega)]
  omega

/-- **C8** (amended).  Inbound frame sizing as the code implements it: for
a little-endian frame whose fixed header carries body length `b` and
fields-array length `f`, the buffer `popMessage` assembles has size exactly
`frame_size = round_up_8(16 + f) + b` — not `frame_size + 16`; this agrees
with `headerSigMsgSize` of rawmessage.go, which computes the same
`round_up_8(16 + f) + b`. -/
theorem popMessage_buffer_size
    (t fl p b s f : Nat) (rest buf : List Nat) (serial : Nat) (err : Option goError)
    (hb : b < 2147483648) (hf : f < 2147483648)
    (hrest : goAlign 8 f + b ≤ rest.length)
    (hok : popMessage ([108, t, fl, p] ++ le32 b ++ le32 s ++ le32 f ++ rest) =
      .ok (buf, serial, err)) :
    buf.length = goAlign 8 (16 + f) + b ∧
    headerSigMsgSize (([108, t, fl, p] ++ le32 b ++ le32 s ++ le32 f ++ rest).take 16) =
      .ok ((goAlign 8 (16 + f) + b : Nat) : Int) := by
  have hH16 : ([108, t, fl, p] ++ (le32 b ++ (le32 s ++ le32 f))).length = 16 := by
    simp [le32]
  have hassoc : [108, t, fl, p] ++ le32 b ++ le32 s ++ le32 f ++ rest =
      ([108, t, fl, p] ++ (le32 b ++ (le32 s ++ le32 f))) ++ rest := by
    simp [List.append_assoc]
  have htake : ((([108, t, fl, p] ++ (le32 b ++ (le32 s ++ le32 f)))) ++ rest).take 16 =
      [108, t, fl, p] ++ (le32 b ++ (le32 s ++ le32 f)) :=
    List.take_left' hH16
  have hbody : ByteOrder.le.uint32 (le32 b ++ (le32 s ++ le32 f)) = b :=
    uint32_le32_append b _ (by omega)
  have hfldw : ByteOrder.le.uint32 (le32 f) = f := uint32_le32 f (by omega)
  unfold popMessage at hok
  rw [hassoc] at hok
  rw [if_neg (by rw [List.length_append, hH16]; omega)] at hok
  have hok2 :
      (if (([108, t, fl, p] ++ (le32 b ++ (le32 s ++ le32 f))) ++ rest).length <
          16 + (ByteOrder.le.uint32 (le32 f) + 7) % 4294967296 / 8 * 8 +
            ByteOrder.le.uint32 (le32 b ++ (le32 s ++ le32 f)) then
        (Except.ok ([], 0, some goError.errIncompleteMessage) :
          Except goPanic (List Nat × Nat × Option goError))
      else
        popFinish
          ((([108, t, fl, p] ++ (le32 b ++ (le32 s ++ le32 f))) ++ rest).take
            (16 + (ByteOrder.le.uint32 (le32 f) + 7) % 4294967296 / 8 * 8 +
              ByteOrder.le.uint32 (le32 b ++ (le32 s ++ le32 f))))
          ByteOrder.le) =
      Except.ok (buf, serial, err) := hok
  rw [hbody, hfldw] at hok2
  have hfld : (f + 7) % 4294967296 / 8 * 8 = goAlign 8 f := by
    unfold goAlign
    norm_num
    omega
  rw [hfld] at hok2
  rw [if_neg (by rw [List.length_append, hH16]; omega)] at hok2
  refine ⟨?_, by rw [hassoc, htake]; exact headerSigMsgSize_words t fl p b s f hb hf⟩
  unfold popFinish at hok2
  split at hok2
  · exact (Except.noConfusion hok2)
  · simp only [Except.ok.injEq, Prod.mk.injEq] at hok2
    obtain ⟨h1, h2, h3⟩ := hok2
    rw [← h1, List.length_take, List.length_append, hH16]
    have := goAlign8_split f
    omega

/-- Witness for the amended C8 theorem on the `Hello` frame (fields length
109, body length 0): the assembled buffer is the 128-byte frame. -/
theorem popMessage_buffer_size_witness :
    helloFrame.length = goAlign 8 (16 + 109) + 0 ∧
    headerSigMsgSize (([108, 1, 0, 1] ++ le32 0 ++ le32 1 ++ le32 109 ++
        helloFrame.drop 16).take 16) =
      .ok ((goAlign 8 (16 + 109) + 0 : Nat) : Int) :=
  popMessage_buffer_size 1 0 1 0 1 109 (helloFrame.drop 16) helloFrame 0 none
    (by decide) (by decide) (by decide) rfl

/-- Patching a length word at `pos` exposes it at `pos`. -/
theorem putU32At_drop (data : List Nat) (pos : Nat) (o : ByteOrder) (v : Nat)
    (h : pos ≤ data.length) :
    (putU32At data pos o v).drop pos = o.putUint32 v ++ data.drop (pos + 4) := by
  unfold putU32At
  rw [show data.take pos ++ o.putUint32 v ++ data.drop (pos + 4) =
      data.take pos ++ (o.putUint32 v ++ data.drop (pos + 4)) from by
    simp [List.append_assoc]]
  exact List.drop_left' (by simp [List.length_take]; omega)

/-- Patching a length word at `pos` leaves the bytes after it unchanged. -/
theorem putU32At_drop_after (data : List Nat) (pos : Nat) (o : ByteOrder) (v : Nat)
    (h : pos ≤ data.length) :
    (putU32At data pos o v).drop (pos + 4) = data.drop (pos + 4) := by
  unfold putU32At
  exact List.drop_left' (by
    rcases o with _ | _ <;>
      simp [ByteOrder.putUint32, le32, be32, List.length_take] <;> omega)

/-- Patching a length word does not move the end of the buffer when the
word lies inside it. -/
theorem putU32At_length (data : List Nat) (pos : Nat) (o : ByteOrder) (v : Nat)
    (h : pos + 4 ≤ data.length) :
    (putU32At data pos o v).length = data.length := by
  unfold putU32At
  rcases o with _ | _ <;>
    simp [ByteOrder.putUint32, le32, be32, List.length_take] <;> omega

/-- **C3** (amended).  The array length word as the code computes it: for
every element writer `proc` that succeeds and only moves the cursor
forward, `appendArray` patches the 4-byte placeholder with
`m'.Idx - start`, the full distance from the byte right after the length
word to the final cursor — so the declared length counts any alignment
padding the element writer emits before its first element (it is not the
element payload alone; see the C3 counterexample, where `a(su)` declares
52 = 4 padding + 48 payload bytes).  The patch leaves everything after the
length word unchanged. -/
theorem array_length_spans_from_length_field
    (m : msgData) (align : Nat) (proc : msgData → Except goPanic msgData) (m' : msgData)
    (hproc : proc (((m.Round 4).Round align).Put [0, 0, 0, 0]) = .ok m')
    (hstart : goAlign align (goAlign 4 m.Idx) + 4 ≤ m'.Idx)
    (hdata : m'.Idx ≤ m'.Data.length)
    (hlen : m'.Idx - (goAlign align (goAlign 4 m.Idx) + 4) < 4294967296)
    (hord : m'.Endianness = .le) :
    ∃ m'', appendArray m align proc = .ok m'' ∧
      m''.Idx = m'.Idx ∧
      ByteOrder.le.uint32 (m''.Data.drop (goAlign align (goAlign 4 m.Idx))) =
        m'.Idx - (goAlign align (goAlign 4 m.Idx) + 4) ∧
      m''.Data.drop (goAlign align (goAlign 4 m.Idx) + 4) =
        m'.Data.drop (goAlign align (goAlign 4 m.Idx) + 4) := by
  have hP : goAlign align (goAlign 4 m.Idx) ≤ m'.Data.length := by omega
  refine ⟨{ m' with Data := (putU32At m'.Data (goAlign align (goAlign 4 m.Idx))
              m'.Endianness (m'.Idx - (goAlign align (goAlign 4 m.Idx) + 4))) },
    ?_, rfl, ?_, ?_⟩
  · have e : appendArray m align proc =
        (proc (((m.Round 4).Round align).Put [0, 0, 0, 0]) >>= fun mr =>
          Except.ok { mr with
            Data := (putU32At mr.Data
              ((((m.Round 4).Round align).Put [0, 0, 0, 0]).Idx - 4) mr.Endianness
              (mr.Idx - (((m.Round 4).Round align).Put [0, 0, 0, 0]).Idx)) }) := rfl
    have hidx : (((m.Round 4).Round align).Put [0, 0, 0, 0]).Idx =
        goAlign align (goAlign 4 m.Idx) + 4 := rfl
    rw [e, hproc]
    simp only [except_bind_ok]
    rw [hidx, Nat.add_sub_cancel]
  · rw [hord]
    rw [putU32At_drop m'.Data _ _ _ hP]
    simp only [ByteOrder.putUint32]
    exact uint32_le32_append _ _ hlen
  · exact putU32At_drop_after m'.Data _ _ _ hP

/-- Witness for the amended C3 theorem: an element writer that first pads
4 bytes to 8-alignment and then writes one byte makes the length word
declare 5 bytes (4 padding + 1 payload). -/
theorem array_length_spans_from_length_field_witness :
    ∃ m'', appendArray { Endianness := ByteOrder.le, Data := [], Idx := 0 } 8
        (fun x => .ok ((x.Round 8).Put [7])) = .ok m'' ∧
      m''.Idx = 9 ∧
      ByteOrder.le.uint32 (m''.Data.drop 0) = 5 ∧
      m''.Data.drop 4 = ([0, 0, 0, 0, 0, 0, 0, 0, 7] : List Nat).drop 4 :=
  array_length_spans_from_length_field
    { Endianness := ByteOrder.le, Data := [], Idx := 0 } 8
    (fun x => .ok ((x.Round 8).Put [7]))
    { Endianness := ByteOrder.le, Data := [0, 0, 0, 0, 0, 0, 0, 0, 7], Idx := 9 }
    rfl (by decide) (by decide) (by decide) rfl

/-- One `y` write of `putValue`. -/
theorem putGo_stepY (fuel : Nat) (m : msgData) (e : Nat) :
    putGoF (fuel + 1) (.value m (basicSig 'y') (byteV e)) = .ok (m.Put [e % 256], none) := by
  unfold putGoF
  simp [putBasic, goVal.uintOf]

/-- One `u` write of `putValue` on a little-endian cursor. -/
theorem putGo_stepU (fuel : Nat) (m : msgData) (n : Nat) (hord : m.Endianness = .le) :
    putGoF (fuel + 1) (.value m (basicSig 'u') (u32V n)) =
      .ok ((m.Round 4).Put (le32 n), none) := by
  unfold putGoF
  simp [putBasic, goVal.uintOf, ByteOrder.putUint32, msgData.Round, hord]

/-- The struct-field loop on an exhausted signature list. -/
theorem putGo_stepFieldsNil (fuel : Nat) (vals : List goVal) (i : Nat) (m : msgData) :
    putGoF (fuel + 1) (.structFields [] vals i m) = .ok (m, none) := by
  unfold putGoF
  rfl

/-- One iteration of the struct-field loop. -/
theorem putGo_stepFields (fuel : Nat) (sig : signature) (rest : List signature)
    (vals : List goVal) (i : Nat) (m m' : msgData) (h : i < vals.length)
    (hv : putGoF fuel (.value m sig (vals.get ⟨i, h⟩)) = .ok (m', none)) :
    putGoF (fuel + 1) (.structFields (sig :: rest) vals i m) =
      putGoF fuel (.structFields rest vals (i + 1) m') := by
  conv_lhs => unfold putGoF
  rw [dif_pos h, hv]

/-- The struct case of `putValue`: 8-align, run the field loop, fall through
to the failed `sig.(basicSig)` assertion. -/
theorem putGo_stepStruct (fuel : Nat) (sigs : List signature) (vals : List goVal)
    (m m' : msgData)
    (hv : putGoF fuel (.structFields sigs vals 0 (m.Round 8)) = .ok (m', none)) :
    putGoF (fuel + 1) (.value m (structSig sigs) (sliceV vals)) =
      .ok (m', some .interfaceConversion) := by
  unfold putGoF
  simp only []
  rw [hv]

/-- `putValue` on the fixed-header signature `(yyyyuu)` writes the four
bytes and two little-endian words. -/
theorem putValue_hdr (e t f p bl se : Nat) :
    msgData.putValue { Endianness := .le, Data := [], Idx := 0 } hdrSigs
      (sliceV [byteV e, byteV t, byteV f, byteV p, u32V bl, u32V se]) =
    .ok ({ Endianness := .le,
           Data := [e % 256, t % 256, f % 256, p % 256] ++ le32 bl ++ le32 se,
           Idx := ([e % 256, t % 256, f % 256, p % 256] ++ le32 bl ++ le32 se).length },
         some .interfaceConversion) := by
  have hsig : hdrSigs = structSig [basicSig 'y', basicSig 'y', basicSig 'y', basicSig 'y',
      basicSig 'u', basicSig 'u'] := rfl
  have hfuel : marshalFuel = 999986 + 13 + 1 := rfl
  unfold msgData.putValue
  rw [hsig, hfuel]
  have v1 : putGoF (999986 + 12) (.value { Endianness := .le, Data := [], Idx := 0 }
      (basicSig 'y') (byteV e)) = .ok ({ Endianness := .le, Data := [e % 256], Idx := 1 }, none) :=
    putGo_stepY _ _ _
  have v2 : putGoF (999986 + 11) (.value { Endianness := .le, Data := [e % 256], Idx := 1 }
      (basicSig 'y') (byteV t)) =
      .ok ({ Endianness := .le, Data := [e % 256, t % 256], Idx := 2 }, none) :=
    putGo_stepY _ _ _
  have v3 : putGoF (999986 + 10) (.value { Endianness := .le, Data := [e % 256, t % 256], Idx := 2 }
      (basicSig 'y') (byteV f)) =
      .ok ({ Endianness := .le, Data := [e % 256, t % 256, f % 256], Idx := 3 }, none) :=
    putGo_stepY _ _ _
  have v4 : putGoF (999986 + 9) (.value { Endianness := .le, Data := [e % 256, t % 256, f % 256], Idx := 3 }
      (basicSig 'y') (byteV p)) =
      .ok ({ Endianness := .le, Data := [e % 256, t % 256, f % 256, p % 256], Idx := 4 }, none) :=
    putGo_stepY _ _ _
  have v5 : putGoF (999986 + 8)
      (.value ({ Endianness := .le, Data := [e % 256, t % 256, f % 256, p % 256],
                 Idx := 4 } : msgData) (basicSig 'u') (u32V bl)) =
      .ok ({ Endianness := .le,
             Data := [e % 256, t % 256, f % 256, p % 256] ++ le32 bl, Idx := 8 }, none) := by
    rw [show (999986 + 8 : Nat) = (999986 + 7) + 1 from rfl, putGo_stepU _ _ _ rfl]
    simp [msgData.Round, msgData.Put, goAlign, le32]
  have v6 : putGoF (999986 + 7)
      (.value ({ Endianness := .le, Data := [e % 256, t % 256, f % 256, p % 256] ++ le32 bl,
                 Idx := 8 } : msgData) (basicSig 'u') (u32V se)) =
      .ok ({ Endianness := .le,
             Data := [e % 256, t % 256, f % 256, p % 256] ++ le32 bl ++ le32 se, Idx := 12 }, none) := by
    rw [show (999986 + 7 : Nat) = (999986 + 6) + 1 from rfl, putGo_stepU _ _ _ rfl]
    simp [msgData.Round, msgData.Put, goAlign, le32]
  exact putGo_stepStruct _ _ _ _ _
    (by
      rw [show (999986 + 13 : Nat) = (999986 + 12) + 1 from rfl,
          putGo_stepFields (999986 + 12) _ _ _ _ _ _ (by norm_num) v1]
      rw [show (999986 + 12 : Nat) = (999986 + 11) + 1 from rfl,
          putGo_stepFields (999986 + 11) _ _ _ _ _ _ (by norm_num) v2]
      rw [show (999986 + 11 : Nat) = (999986 + 10) + 1 from rfl,
          putGo_stepFields (999986 + 10) _ _ _ _ _ _ (by norm_num) v3]
      rw [show (999986 + 10 : Nat) = (999986 + 9) + 1 from rfl,
          putGo_stepFields (999986 + 9) _ _ _ _ _ _ (by norm_num) v4]
      rw [show (999986 + 9 : Nat) = (999986 + 8) + 1 from rfl,
          putGo_stepFields (999986 + 8) _ _ _ _ _ _ (by norm_num) v5]
      rw [show (999986 + 8 : Nat) = (999986 + 7) + 1 from rfl,
          putGo_stepFields (999986 + 7) _ _ _ _ _ _ (by norm_num) v6]
      exact putGo_stepFieldsNil _ _ _ _)

/-- `goAlign` never moves the offset backwards (alignments 1, 2, 4, 8). -/
theorem goAlign_ge (a n : Nat) (ha : a = 1 ∨ a = 2 ∨ a = 4 ∨ a = 8) :
    n ≤ goAlign a n := by
  rcases ha with h | h | h | h <;> subst h <;> simp [goAlign] <;> omega

/-- A 4-alignment is a no-op four bytes past an 8-aligned offset. -/
theorem goAlign4_of_align8 (n : Nat) : goAlign 4 (goAlign 8 n + 4) = goAlign 8 n + 4 := by
  simp only [goAlign]
  norm_num
  omega

/-- An 8-aligned offset is 4-aligned. -/
theorem goAlign8_mod (n : Nat) : goAlign 8 n % 8 = 0 := by
  simp only [goAlign]
  norm_num

/-- `Put` with the cursor at or past the end appends (zero-filling the
gap). -/
theorem Put_ge (m : msgData) (s : List Nat) (h : m.Data.length ≤ m.Idx) :
    m.Put s = { m with
      Data := m.Data ++ (List.replicate (m.Idx - m.Data.length) 0 ++ s),
      Idx := m.Idx + s.length } := by
  unfold msgData.Put
  rw [List.take_of_length_le h]
  simp [List.append_assoc]

/-- `Put` with the cursor exactly at the end appends the bytes. -/
theorem Put_eq (m : msgData) (s : List Nat) (h : m.Idx = m.Data.length) :
    m.Put s = { m with Data := m.Data ++ s, Idx := m.Idx + s.length } := by
  rw [Put_ge m s (by omega)]
  simp [h]

/-- One `g` write of `putValue`. -/
theorem putGo_stepG (fuel : Nat) (m : msgData) (sv : List Nat) :
    putGoF (fuel + 1) (.value m (basicSig 'g') (strV sv)) =
      .ok (((m.Put [sv.length % 256]).Put sv).Put [0], none) := by
  unfold putGoF
  simp [putBasic, goVal.goStringOf, msgData.PutString]

/-- One `s`/`o` write of `putValue` on a little-endian cursor. -/
theorem putGo_stepSO (fuel : Nat) (m : msgData) (sc : Char) (sv : List Nat)
    (hord : m.Endianness = .le) (hsc : sc = 's' ∨ sc = 'o') :
    putGoF (fuel + 1) (.value m (basicSig sc) (strV sv)) =
      .ok ((((m.Round 4).Put (le32 sv.length)).Put sv).Put [0], none) := by
  rcases hsc with h | h <;> subst h <;>
    (unfold putGoF;
     simp [putBasic, goVal.goStringOf, msgData.PutString, msgData.Round,
       ByteOrder.putUint32, hord])

/-- A rounded-up offset is unchanged when already aligned (1, 2, 4, 8). -/
theorem goAlign_eq_self (a n : Nat) (ha : a = 1 ∨ a = 2 ∨ a = 4 ∨ a = 8)
    (h : n % a = 0) : goAlign a n = n := by
  rcases ha with h' | h' | h' | h' <;> subst h' <;> simp [goAlign] <;> omega

/-- `Put` on a little-endian cursor sitting at the end of its buffer. -/
theorem Put_app (D s : List Nat) :
    ({ Endianness := .le, Data := D, Idx := D.length } : msgData).Put s =
      { Endianness := .le, Data := D ++ s, Idx := (D ++ s).length } := by
  rw [Put_eq _ _ rfl]
  simp

/-- `Put` on a little-endian cursor past the end zero-fills the gap. -/
theorem Put_pad (D s : List Nat) (A : Nat) (h : D.length ≤ A) :
    ({ Endianness := .le, Data := D, Idx := A } : msgData).Put s =
      { Endianness := .le, Data := D ++ (List.replicate (A - D.length) 0 ++ s),
        Idx := (D ++ (List.replicate (A - D.length) 0 ++ s)).length } := by
  rw [Put_ge _ _ h]
  simp
  omega

/-- `put "g"` writes the signature length byte, bytes and NUL. -/
theorem put_g (M : msgData) (sv : List Nat) :
    M.put "g" (strV sv) = .ok (((M.Put [sv.length % 256]).Put sv).Put [0], none) := by
  unfold msgData.put
  rw [show parseOneSignature "g" = .ok (basicSig 'g', "") from rfl]
  simp only [ne_eq, not_true_eq_false, if_false, ite_false]
  unfold msgData.putValue
  rw [show marshalFuel = 999999 + 1 from rfl, putGo_stepG]

/-- `putValue` on `s`/`o` writes the 4-aligned length word, bytes and NUL. -/
theorem put_value_so (M : msgData) (sc : Char) (s : List Nat) (hord : M.Endianness = .le)
    (hsc : sc = 's' ∨ sc = 'o') :
    M.putValue (basicSig sc) (strV s) =
      .ok ((((M.Round 4).Put (le32 s.length)).Put s).Put [0], none) := by
  unfold msgData.putValue
  rw [show marshalFuel = 999999 + 1 from rfl, putGo_stepSO 999999 M sc s hord hsc]

/-- `Round 4` is a no-op on an end-of-buffer cursor of 4-aligned length. -/
theorem Round4_noop (D : List Nat) (h : D.length % 4 = 0) :
    ({ Endianness := .le, Data := D, Idx := D.length } : msgData).Round 4 =
      { Endianness := .le, Data := D, Idx := D.length } := by
  rw [show ∀ M : msgData, M.Round 4 = { M with Idx := goAlign 4 M.Idx } from fun _ => rfl]
  simp
  exact goAlign_eq_self 4 _ (by norm_num) h

/-- A string-valued header field on an end-of-buffer cursor appends its
`fieldSeg` bytes. -/
theorem putHeaderField_str (D : List Nat) (code : Nat) (sc : Char) (sco : Nat) (s : List Nat)
    (hsc : sc = 's' ∨ sc = 'o') (hg : strBytes (basicSig sc).String = [sco]) :
    putHeaderField { Endianness := .le, Data := D, Idx := D.length } code
        (basicSig sc) (strV s) false =
      .ok { Endianness := .le,
            Data := D ++ fieldSeg D.length (code % 256) sco s,
            Idx := (D ++ fieldSeg D.length (code % 256) sco s).length } := by
  have step : putHeaderField { Endianness := .le, Data := D, Idx := D.length } code
      (basicSig sc) (strV s) false =
      (((({ Endianness := .le, Data := D, Idx := D.length } : msgData).Round 8).Put
          [code % 256]).put "g" (strV (strBytes (basicSig sc).String)) >>= fun x =>
        (x.1.putValue (basicSig sc) (strV s) >>= fun y => Except.ok y.1)) := by
    unfold putHeaderField
    rw [if_neg (by simp)]
  rw [step]
  rw [show ({ Endianness := .le, Data := D, Idx := D.length } : msgData).Round 8 =
      { Endianness := .le, Data := D, Idx := goAlign 8 D.length } from rfl]
  rw [Put_pad D [code % 256] (goAlign 8 D.length) (goAlign_ge 8 _ (by norm_num))]
  rw [put_g, hg, except_bind_ok]
  simp only []
  rw [Put_app, Put_app, Put_app]
  rw [put_value_so _ sc s rfl hsc, except_bind_ok]
  simp only []
  rw [Round4_noop _ (by
    have h1 := goAlign8_mod D.length
    have h2 := goAlign_ge 8 D.length (by norm_num)
    simp
    omega)]
  rw [Put_app, Put_app, Put_app]
  simp [fieldSeg, List.append_assoc]
/-- `putValue` on `u` writes the 4-aligned little-endian word. -/
theorem put_value_u (M : msgData) (n : Nat) (hord : M.Endianness = .le) :
    M.putValue (basicSig 'u') (u32V n) = .ok ((M.Round 4).Put (le32 n), none) := by
  unfold msgData.putValue
  rw [show marshalFuel = 999999 + 1 from rfl, putGo_stepU 999999 M n hord]

/-- A `u32`-valued header field on an end-of-buffer cursor appends its
`u32FieldSeg` bytes. -/
theorem putHeaderField_u32 (D : List Nat) (code n : Nat) :
    putHeaderField { Endianness := .le, Data := D, Idx := D.length } code
        (basicSig 'u') (u32V n) false =
      .ok { Endianness := .le,
            Data := D ++ u32FieldSeg D.length (code % 256) n,
            Idx := (D ++ u32FieldSeg D.length (code % 256) n).length } := by
  have step : putHeaderField { Endianness := .le, Data := D, Idx := D.length } code
      (basicSig 'u') (u32V n) false =
      (((({ Endianness := .le, Data := D, Idx := D.length } : msgData).Round 8).Put
          [code % 256]).put "g" (strV (strBytes (basicSig 'u').String)) >>= fun x =>
        (x.1.putValue (basicSig 'u') (u32V n) >>= fun y => Except.ok y.1)) := by
    unfold putHeaderField
    rw [if_neg (by simp)]
  rw [step]
  rw [show ({ Endianness := .le, Data := D, Idx := D.length } : msgData).Round 8 =
      { Endianness := .le, Data := D, Idx := goAlign 8 D.length } from rfl]
  rw [Put_pad D [code % 256] (goAlign 8 D.length) (goAlign_ge 8 _ (by norm_num))]
  rw [put_g, show strBytes (basicSig 'u').String = [117] from rfl, except_bind_ok]
  simp only []
  rw [Put_app, Put_app, Put_app]
  rw [put_value_u _ n rfl, except_bind_ok]
  simp only []
  rw [Round4_noop _ (by
    have h1 := goAlign8_mod D.length
    have h2 := goAlign_ge 8 D.length (by norm_num)
    simp
    omega)]
  rw [Put_app]
  simp [u32FieldSeg, List.append_assoc]

/-- A skipped header field leaves the cursor unchanged (append form). -/
theorem putHeaderField_skip (D : List Nat) (code : Nat) (sig : signature) (v : goVal) :
    putHeaderField { Endianness := .le, Data := D, Idx := D.length } code sig v true =
      .ok { Endianness := .le, Data := D ++ [], Idx := (D ++ []).length } := by
  unfold putHeaderField
  simp

/-- A string-valued header field, with its skip condition. -/
theorem putHeaderField_str_if (D : List Nat) (code : Nat) (sc : Char) (sco : Nat)
    (s : List Nat) (z : Bool)
    (hsc : sc = 's' ∨ sc = 'o') (hg : strBytes (basicSig sc).String = [sco]) :
    putHeaderField { Endianness := .le, Data := D, Idx := D.length } code
        (basicSig sc) (strV s) z =
      .ok { Endianness := .le,
            Data := D ++ (if z then [] else fieldSeg D.length (code % 256) sco s),
            Idx := (D ++ (if z then [] else fieldSeg D.length (code % 256) sco s)).length } := by
  cases z
  · simp only [if_false, ite_false, Bool.false_eq_true]
    exact putHeaderField_str D code sc sco s hsc hg
  · simp only [if_true, ite_true]
    exact putHeaderField_skip D code (basicSig sc) (strV s)

/-- A `u32`-valued header field, with its skip condition. -/
theorem putHeaderField_u32_if (D : List Nat) (code n : Nat) (z : Bool) :
    putHeaderField { Endianness := .le, Data := D, Idx := D.length } code
        (basicSig 'u') (u32V n) z =
      .ok { Endianness := .le,
            Data := D ++ (if z then [] else u32FieldSeg D.length (code % 256) n),
            Idx := (D ++ (if z then [] else u32FieldSeg D.length (code % 256) n)).length } := by
  cases z
  · simp only [if_false, ite_false, Bool.false_eq_true]
    exact putHeaderField_u32 D code n
  · simp only [if_true, ite_true]
    exact putHeaderField_skip D code (basicSig 'u') (u32V n)

/-- Patching the length placeholder right before the fields bytes yields
the prefix, the length word and the fields. -/
theorem patch_after_placeholder (A B FS : List Nat) (hA : A.length = 12)
    (hB : B.length = 4) :
    putU32At (A ++ B ++ FS) 12 ByteOrder.le ((A ++ B ++ FS).length - 16) =
      A ++ le32 FS.length ++ FS := by
  unfold putU32At
  have ht : (A ++ B ++ FS).take 12 = A := by
    rw [List.append_assoc]
    exact List.take_left' hA
  have hd : (A ++ B ++ FS).drop (12 + 4) = FS :=
    List.drop_left' (by simp [hA, hB])
  have hv : (A ++ B ++ FS).length - 16 = FS.length := by
    simp [hA, hB]
    omega
  rw [ht, hd, hv]
  rfl

/-- Right-associated instance of `patch_after_placeholder` as it arises in
`putHeader`. -/
theorem patch_hdr (c1 c2 c3 c4 bl se : Nat) (FS : List Nat) :
    putU32At ([c1, c2, c3, c4] ++ (le32 bl ++ (le32 se ++ ([0, 0, 0, 0] ++ FS))))
        (([c1, c2, c3, c4] ++ (le32 bl ++ (le32 se ++ [0, 0, 0, 0]))).length - 4)
        ByteOrder.le
        (([c1, c2, c3, c4] ++ (le32 bl ++ (le32 se ++ ([0, 0, 0, 0] ++ FS)))).length -
          ([c1, c2, c3, c4] ++ (le32 bl ++ (le32 se ++ [0, 0, 0, 0]))).length) =
      [c1, c2, c3, c4] ++ (le32 bl ++ (le32 se ++ (le32 FS.length ++ FS))) := by
  have e1 : [c1, c2, c3, c4] ++ (le32 bl ++ (le32 se ++ ([0, 0, 0, 0] ++ FS))) =
      ([c1, c2, c3, c4] ++ le32 bl ++ le32 se) ++ [0, 0, 0, 0] ++ FS := by
    simp [List.append_assoc]
  have e2 : (([c1, c2, c3, c4] ++ (le32 bl ++ (le32 se ++ [0, 0, 0, 0]))).length : Nat) = 16 := by
    simp [le32]
  rw [e1, e2, show (16 : Nat) - 4 = 12 from rfl]
  rw [patch_after_placeholder ([c1, c2, c3, c4] ++ le32 bl ++ le32 se) [0, 0, 0, 0] FS
    (by simp [le32]) rfl]
  simp [List.append_assoc]

/-- `putHeader` on a message with empty `ErrorName`, `Sender`, `Signature`
and `NumFD`: the fixed header, the patched fields-array length, and the
`fieldSegs` bytes. -/
theorem putHeader_empty (e t f pr bl se r : Nat) (path iface member dest : List Nat) :
    msgData.putHeader { Endianness := .le, Data := [], Idx := 0 }
      { Endianness := e, Type' := t, Flags := f, Protocol := pr,
        BodyLength := bl, Serial := se }
      { Path := path, Interface := iface, Member := member, ErrorName := [],
        ReplySerial := r, Destination := dest, Sender := [], Signature := [],
        NumFD := 0 } =
      .ok { Endianness := .le,
            Data := ([e % 256, t % 256, f % 256, pr % 256] ++ le32 bl ++ le32 se) ++
              le32 (fieldSegs 16 path iface member r dest).length ++
              fieldSegs 16 path iface member r dest,
            Idx := 16 + (fieldSegs 16 path iface member r dest).length } := by
  have step : msgData.putHeader { Endianness := .le, Data := [], Idx := 0 }
      { Endianness := e, Type' := t, Flags := f, Protocol := pr,
        BodyLength := bl, Serial := se }
      { Path := path, Interface := iface, Member := member, ErrorName := [],
        ReplySerial := r, Destination := dest, Sender := [], Signature := [],
        NumFD := 0 } =
      (({ Endianness := .le, Data := [], Idx := 0 } : msgData).putValue hdrSigs
          (sliceV [byteV e, byteV t, byteV f, byteV pr, u32V bl, u32V se]) >>= fun x =>
        (putHeaderField (x.1.Put [0, 0, 0, 0]) 1 (fldSigs.getD 0 (basicSig ' '))
            (strV path) path.isEmpty >>= fun m1 =>
         putHeaderField m1 2 (fldSigs.getD 1 (basicSig ' '))
            (strV iface) iface.isEmpty >>= fun m2 =>
         putHeaderField m2 3 (fldSigs.getD 2 (basicSig ' '))
            (strV member) member.isEmpty >>= fun m3 =>
         putHeaderField m3 4 (fldSigs.getD 3 (basicSig ' '))
            (strV ([] : List Nat)) (List.isEmpty ([] : List Nat)) >>= fun m4 =>
         putHeaderField m4 5 (fldSigs.getD 4 (basicSig ' '))
            (u32V r) (r == 0) >>= fun m5 =>
         putHeaderField m5 6 (fldSigs.getD 5 (basicSig ' '))
            (strV dest) dest.isEmpty >>= fun m6 =>
         putHeaderField m6 7 (fldSigs.getD 6 (basicSig ' '))
            (strV ([] : List Nat)) (List.isEmpty ([] : List Nat)) >>= fun m7 =>
         putHeaderField m7 8 (fldSigs.getD 7 (basicSig ' '))
            (strV ([] : List Nat)) (List.isEmpty ([] : List Nat)) >>= fun m8 =>
         putHeaderField m8 9 (fldSigs.getD 8 (basicSig ' '))
            (u32V 0) ((0 : Nat) == 0) >>= fun m9 =>
         Except.ok { m9 with
           Data := putU32At m9.Data ((x.1.Put [0, 0, 0, 0]).Idx - 4) m9.Endianness
             (m9.Idx - (x.1.Put [0, 0, 0, 0]).Idx) })) := by
    unfold msgData.putHeader
    rfl
  rw [step, putValue_hdr, except_bind_ok]
  simp only []
  rw [Put_app]
  rw [show fldSigs.getD 0 (basicSig ' ') = basicSig 'o' from rfl,
      show fldSigs.getD 1 (basicSig ' ') = basicSig 's' from rfl,
      show fldSigs.getD 2 (basicSig ' ') = basicSig 's' from rfl,
      show fldSigs.getD 3 (basicSig ' ') = basicSig 's' from rfl,
      show fldSigs.getD 4 (basicSig ' ') = basicSig 'u' from rfl,
      show fldSigs.getD 5 (basicSig ' ') = basicSig 's' from rfl,
      show fldSigs.getD 6 (basicSig ' ') = basicSig 's' from rfl,
      show fldSigs.getD 7 (basicSig ' ') = basicSig 'g' from rfl,
      show fldSigs.getD 8 (basicSig ' ') = basicSig 'u' from rfl]
  simp only [List.isEmpty_nil, beq_self_eq_true]
  rw [putHeaderField_str_if _ 1 'o' 111 path path.isEmpty (Or.inr rfl) rfl, except_bind_ok]
  rw [putHeaderField_str_if _ 2 's' 115 iface iface.isEmpty (Or.inl rfl) rfl, except_bind_ok]
  rw [putHeaderField_str_if _ 3 's' 115 member member.isEmpty (Or.inl rfl) rfl, except_bind_ok]
  rw [putHeaderField_skip _ 4 (basicSig 's') (strV []), except_bind_ok]
  rw [putHeaderField_u32_if _ 5 r (r == 0), except_bind_ok]
  rw [putHeaderField_str_if _ 6 's' 115 dest dest.isEmpty (Or.inl rfl) rfl, except_bind_ok]
  rw [putHeaderField_skip _ 7 (basicSig 's') (strV []), except_bind_ok]
  rw [putHeaderField_skip _ 8 (basicSig 'g') (strV []), except_bind_ok]
  rw [putHeaderField_u32_if _ 9 0 true, except_bind_ok]
  simp only []
  simp only [List.append_assoc, List.append_nil]
  rw [patch_hdr]
  simp only [fieldSegs]
  simp only [List.length_append,
    show ∀ x, (le32 x).length = 4 from fun _ => rfl,
    show ([e % 256, t % 256, f % 256, pr % 256] : List Nat).length = 4 from rfl,
    show ([0, 0, 0, 0] : List Nat).length = 4 from rfl]
  norm_num
  ring_nf
  exact ⟨trivial, trivial⟩

/-- `_Align` agrees with `goAlign` on the alignments in use. -/
theorem _Align_eq_goAlign (a : Nat) (ha : a = 1 ∨ a = 2 ∨ a = 4 ∨ a = 8) (n : Nat) :
    _Align a (n : Int) = (goAlign a n : Int) := by
  rcases ha with h | h | h | h <;> subst h <;>
    simp only [_Align, goAlign] <;> norm_num <;>
    rw [Int.fdiv_eq_tdiv (by omega) (by omega), Int.tdiv_eq_ediv (by omega) (by omega)] <;>
    omega

/-- `_AppendAlign` writes the same zero padding as `padTo`. -/
theorem _AppendAlign_eq_padTo (a : Nat) (ha : a = 1 ∨ a = 2 ∨ a = 4 ∨ a = 8)
    (l : List Nat) : _AppendAlign a l = padTo a l := by
  unfold _AppendAlign padTo
  rw [_Align_eq_goAlign a ha]
  congr 1
  congr 1
  have := goAlign_ge a l.length ha
  omega

/-- An offset four bytes past an 8-aligned one is 4-aligned. -/
theorem goAlign4_noop_after8 (n k : Nat) (hk : k % 4 = 0) :
    goAlign 4 (goAlign 8 n + k) = goAlign 8 n + k := by
  apply goAlign_eq_self 4 _ (by norm_num)
  have := goAlign8_mod n
  omega

/-- The buffer-variant string header field produces the same `fieldSeg`
bytes as the cursor variant. -/
theorem B_strField (b : List Nat) (code sc : Nat) (s : List Nat) :
    _AppendString (_AppendAlign 8 b ++ [code, 1, sc, 0]) s =
      b ++ fieldSeg b.length code sc s := by
  unfold _AppendString
  rw [_AppendAlign_eq_padTo 8 (by norm_num), _AppendAlign_eq_padTo 4 (by norm_num)]
  unfold padTo fieldSeg
  have hlen : (b ++ List.replicate (goAlign 8 b.length - b.length) 0 ++
      [code, 1, sc, 0]).length = goAlign 8 b.length + 4 := by
    have := goAlign_ge 8 b.length (by norm_num)
    simp
    omega
  rw [hlen, goAlign4_noop_after8 b.length 4 (by norm_num)]
  simp [List.append_assoc]

/-- The buffer-variant `u32` header field produces the same `u32FieldSeg`
bytes as the cursor variant. -/
theorem B_u32Field (b : List Nat) (code n : Nat) :
    _AppendUInt32 (_AppendAlign 8 b ++ [code, 1, 117, 0]) n =
      b ++ u32FieldSeg b.length code n := by
  unfold _AppendUInt32
  rw [_AppendAlign_eq_padTo 8 (by norm_num), _AppendAlign_eq_padTo 4 (by norm_num)]
  unfold padTo u32FieldSeg
  have hlen : (b ++ List.replicate (goAlign 8 b.length - b.length) 0 ++
      [code, 1, 117, 0]).length = goAlign 8 b.length + 4 := by
    have := goAlign_ge 8 b.length (by norm_num)
    simp
    omega
  rw [hlen, goAlign4_noop_after8 b.length 4 (by norm_num)]
  simp [List.append_assoc]

/-- The buffer-variant header-fields closure emits exactly the `fieldSegs`
bytes when the body signature is empty. -/
theorem marshalBFields_empty_sig (T F P ser r : Nat) (path iface member dest : List Nat)
    (b : List Nat) :
    marshalBFields { Type' := T, Flags := F, Protocol := P, Path := path, Dest := dest,
                     Iface := iface, Member := member, Sig := "", serial := ser,
                     replySerial := r, ErrorName := [], Params := [] } b =
      b ++ fieldSegs b.length path iface member r dest := by
  simp only [marshalBFields, fieldSegs]
  simp only [B_strField, B_u32Field]
  split_ifs <;> simp [List.append_assoc, Nat.add_assoc]

/-- `marshalBFields` on the empty-body message shape. -/
theorem marshalBFields_emptyMsg (T F P ser r : Nat) (path iface member dest : List Nat)
    (b : List Nat) :
    marshalBFields (emptyBodyMsg T F P ser r path iface member dest) b =
      b ++ fieldSegs b.length path iface member r dest :=
  marshalBFields_empty_sig T F P ser r path iface member dest b

/-- The buffer-based marshaller on an empty-body message produces the
canonical frame. -/
theorem marshal_empty_B (T F P ser r : Nat) (path iface member dest : List Nat) :
    Message._MarshalB (emptyBodyMsg T F P ser r path iface member dest) =
      .ok (emptyBodyFrame T F P ser r path iface member dest) := by
  have step : Message._MarshalB (emptyBodyMsg T F P ser r path iface member dest) =
      (_AppendParamsData [] "" [] >>= fun tmpBuff =>
        (_AppendArray (_AppendUInt32 (_AppendUInt32 [108, T % 256, F % 256, P % 256]
            tmpBuff.length) ser) 1
            (fun b => .ok (marshalBFields (emptyBodyMsg T F P ser r path iface member dest)
              b)) >>= fun buff2 =>
          (_AppendParamsData (_AppendAlign 8 buff2) "" [] >>= fun buff3 =>
            Except.ok buff3))) := by
    unfold Message._MarshalB emptyBodyMsg
    rfl
  rw [step, show _AppendParamsData [] "" [] = .ok ([] : List Nat) from rfl,
      except_bind_ok]
  simp only [List.length_nil]
  have a1 : _AppendUInt32 [108, T % 256, F % 256, P % 256] 0 =
      [108, T % 256, F % 256, P % 256] ++ le32 0 := by
    unfold _AppendUInt32
    rw [_AppendAlign_eq_padTo 4 (by norm_num)]
    unfold padTo
    norm_num [goAlign]
  have a2 : _AppendUInt32 ([108, T % 256, F % 256, P % 256] ++ le32 0) ser =
      ([108, T % 256, F % 256, P % 256] ++ le32 0) ++ le32 ser := by
    unfold _AppendUInt32
    rw [_AppendAlign_eq_padTo 4 (by norm_num)]
    unfold padTo
    norm_num [goAlign, le32]
  rw [a1, a2]
  have step2 : _AppendArray (([108, T % 256, F % 256, P % 256] ++ le32 0) ++ le32 ser) 1
      (fun b => (.ok (marshalBFields (emptyBodyMsg T F P ser r path iface member dest) b) :
        Except goPanic (List Nat))) =
      ((fun b => (.ok (marshalBFields (emptyBodyMsg T F P ser r path iface member dest) b) :
            Except goPanic (List Nat)))
        (_AppendAlign 1 (_AppendAlign 4 (([108, T % 256, F % 256, P % 256] ++ le32 0) ++
          le32 ser)) ++ strBytes "ABCD") >>= fun b2 =>
        .ok (_AppendAlign 1 (_AppendAlign 4 (([108, T % 256, F % 256, P % 256] ++ le32 0) ++
            le32 ser)) ++
          le32 (b2.length - (_AppendAlign 1 (_AppendAlign 4
            (([108, T % 256, F % 256, P % 256] ++ le32 0) ++ le32 ser)) ++
            strBytes "ABCD").length) ++
          b2.drop (_AppendAlign 1 (_AppendAlign 4
            (([108, T % 256, F % 256, P % 256] ++ le32 0) ++ le32 ser)) ++
            strBytes "ABCD").length)) := by
    unfold _AppendArray
    rfl
  have a3 : _AppendAlign 1 (_AppendAlign 4 (([108, T % 256, F % 256, P % 256] ++ le32 0) ++
      le32 ser)) = ([108, T % 256, F % 256, P % 256] ++ le32 0) ++ le32 ser := by
    rw [_AppendAlign_eq_padTo 4 (by norm_num), _AppendAlign_eq_padTo 1 (by norm_num)]
    unfold padTo
    norm_num [goAlign, le32]
  rw [step2, a3]
  simp only [except_bind_ok]
  rw [marshalBFields_emptyMsg]
  have h16 : ((([108, T % 256, F % 256, P % 256] ++ le32 0) ++ le32 ser) ++
      strBytes "ABCD").length = 16 := by
    simp [le32, strBytes]
  rw [h16]
  have hdrop : (((([108, T % 256, F % 256, P % 256] ++ le32 0) ++ le32 ser) ++
        strBytes "ABCD") ++ fieldSegs 16 path iface member r dest).drop 16 =
      fieldSegs 16 path iface member r dest :=
    List.drop_left' h16
  have hlen : (((([108, T % 256, F % 256, P % 256] ++ le32 0) ++ le32 ser) ++
        strBytes "ABCD") ++ fieldSegs 16 path iface member r dest).length - 16 =
      (fieldSegs 16 path iface member r dest).length := by
    rw [List.length_append, h16]
    omega
  rw [hdrop, hlen]
  rw [show ∀ l : List Nat, _AppendParamsData l "" [] = .ok l from fun _ => rfl,
      except_bind_ok]
  rw [_AppendAlign_eq_padTo 8 (by norm_num)]
  unfold emptyBodyFrame
  simp [List.append_assoc]

/-- Re-patching the body length word with 0 over an existing zero word is
the identity. -/
theorem patch_body0 (c1 c2 c3 c4 : Nat) (R : List Nat) :
    putU32At ([c1, c2, c3, c4] ++ (le32 0 ++ R)) 4 ByteOrder.le 0 =
      [c1, c2, c3, c4] ++ (le32 0 ++ R) := by
  unfold putU32At
  simp [le32, ByteOrder.putUint32]

/-- The reflection-based marshaller on an empty-body message produces the
canonical frame. -/
theorem marshal_empty_R (T F P ser r : Nat) (path iface member dest : List Nat) :
    Message._Marshal (emptyBodyMsg T F P ser r path iface member dest) =
      .ok (emptyBodyFrame T F P ser r path iface member dest) := by
  have step : Message._Marshal (emptyBodyMsg T F P ser r path iface member dest) =
      (msgData.putHeader { Endianness := .le, Data := [], Idx := 0 }
          { Endianness := 108, Type' := T % 256, Flags := F % 256, Protocol := P % 256,
            BodyLength := 0, Serial := ser }
          { Path := path, Interface := iface, Member := member, ErrorName := [],
            ReplySerial := r, Destination := dest, Sender := [],
            Signature := strBytes "", NumFD := 0 } >>= fun msg =>
        (appendParamsData { Endianness := .le, Data := [], Idx := 0 } "" [] >>=
          fun submsg =>
          Except.ok ((({ msg with
            Data := putU32At msg.Data 4 msg.Endianness submsg.Data.length }).Round 8).Put
              submsg.Data).Data)) := by
    unfold Message._Marshal emptyBodyMsg
    rfl
  rw [step, show strBytes "" = ([] : List Nat) from rfl]
  rw [putHeader_empty 108 (T % 256) (F % 256) (P % 256) 0 ser r path iface member dest]
  rw [except_bind_ok]
  simp only []
  rw [show appendParamsData { Endianness := .le, Data := [], Idx := 0 } "" [] =
      .ok { Endianness := .le, Data := [], Idx := 0 } from rfl, except_bind_ok]
  simp only [List.length_nil]
  have hmod : ∀ x : Nat, x % 256 % 256 = x % 256 := fun x => Nat.mod_mod_of_dvd x dvd_rfl
  simp only [hmod, show (108 : Nat) % 256 = 108 from rfl]
  simp only [List.append_assoc]
  rw [patch_body0]
  have hD : ([108, T % 256, F % 256, P % 256] ++
      (le32 0 ++ (le32 ser ++ (le32 (fieldSegs 16 path iface member r dest).length ++
        fieldSegs 16 path iface member r dest)))).length =
      16 + (fieldSegs 16 path iface member r dest).length := by
    simp [le32]
    omega
  rw [show ∀ M : msgData, M.Round 8 = { M with Idx := goAlign 8 M.Idx } from fun _ => rfl]
  simp only []
  rw [Put_ge _ _ (by
    simp only []
    rw [hD]
    exact goAlign_ge 8 _ (by norm_num))]
  simp only [List.append_nil]
  rw [hD]
  unfold emptyBodyFrame padTo
  simp only [List.append_assoc, hD]

/-- **C9** (amended).  The two marshaller variants agree on the subset of
messages both can handle: for every message with empty body signature, no
parameters and empty `ErrorName` (`Sender` is never set by either
marshaller), the reflection-based `Message._Marshal` and the
`bytes.Buffer`-based variant produce the same bytes — the canonical
`emptyBodyFrame` — for arbitrary type, flags, protocol, serial,
reply-serial, path, interface, member and destination.  On bodies they do
not agree (see the C9 counterexample: a `b`-typed body marshals only in
the buffer variant). -/
theorem marshal_variants_agree_empty_body (T F P ser r : Nat)
    (path iface member dest : List Nat) :
    Message._Marshal (emptyBodyMsg T F P ser r path iface member dest) =
      Message._MarshalB (emptyBodyMsg T F P ser r path iface member dest) ∧
    Message._Marshal (emptyBodyMsg T F P ser r path iface member dest) =
      .ok (emptyBodyFrame T F P ser r path iface member dest) :=
  ⟨(marshal_empty_R T F P ser r path iface member dest).trans
      (marshal_empty_B T F P ser r path iface member dest).symm,
    marshal_empty_R T F P ser r path iface member dest⟩

end GoDbus
